import Mathlib

/-!
Verification of the completion-orchestration service of
`agora-convo-ai-custom-llm-express` against its natural-language
specification.

The development shallowly embeds the TypeScript sources:

* `src/services/openaiService.ts` (Chat-Completions variant, "Variant A"):
  `processNonStreamingRequest`, `processStreamingRequest`;
* `src/services/openaiService.ts` (Responses variant, "Variant B"):
  `processNonStreamingRequest`, `processStreamingRequest`,
  `formatResponseAsCompletion`;
* `src/routes/chatCompletion.ts`: the `/completion` route handler;
* `src/middleware/auth.ts`: `validateRequest`.

JavaScript dynamic values are embedded as the inductive `Json`; property
access on `null`/`undefined` throws, which is modelled in the `Except`
monad.  Network calls and tool bodies are oracles (function parameters),
and every embedded operation additionally returns a trace of the backend
calls it issued and the tools it executed, so that "exactly once"
properties are statable.  `Date.now()` is an explicit `now` parameter.
-/

/-- A JavaScript runtime value, as far as the embedded code observes it.
Numbers are decimal `m * 10 ^ e` (lossless for JSON literals). -/
inductive Json where
  | jsUndefined
  | null
  | bool (b : Bool)
  | num (m : Int) (e : Int)
  | str (s : String)
  | arr (items : List Json)
  | obj (fields : List (String × Json))
  deriving Repr

mutual

/-- Decidable equality on `Json` (the nested inductive defeats deriving). -/
def Json.decEq : (a b : Json) → Decidable (a = b)
  | .jsUndefined, .jsUndefined => .isTrue rfl
  | .null, .null => .isTrue rfl
  | .bool x, .bool y =>
    if h : x = y then .isTrue (by rw [h]) else .isFalse (fun hh => h (by injection hh))
  | .num m e, .num m' e' =>
    if h : m = m' ∧ e = e' then .isTrue (by rw [h.1, h.2])
    else .isFalse (fun hh => h (by injection hh with h1 h2; exact ⟨h1, h2⟩))
  | .str s, .str t =>
    if h : s = t then .isTrue (by rw [h]) else .isFalse (fun hh => h (by injection hh))
  | .arr xs, .arr ys =>
    match Json.decEqList xs ys with
    | .isTrue h => .isTrue (by rw [h])
    | .isFalse h => .isFalse (fun hh => h (by injection hh))
  | .obj fs, .obj gs =>
    match Json.decEqFields fs gs with
    | .isTrue h => .isTrue (by rw [h])
    | .isFalse h => .isFalse (fun hh => h (by injection hh))
  | .jsUndefined, .null | .jsUndefined, .bool _ | .jsUndefined, .num _ _ | .jsUndefined, .str _
  | .jsUndefined, .arr _ | .jsUndefined, .obj _
  | .null, .jsUndefined | .null, .bool _ | .null, .num _ _ | .null, .str _
  | .null, .arr _ | .null, .obj _
  | .bool _, .jsUndefined | .bool _, .null | .bool _, .num _ _ | .bool _, .str _
  | .bool _, .arr _ | .bool _, .obj _
  | .num _ _, .jsUndefined | .num _ _, .null | .num _ _, .bool _ | .num _ _, .str _
  | .num _ _, .arr _ | .num _ _, .obj _
  | .str _, .jsUndefined | .str _, .null | .str _, .bool _ | .str _, .num _ _
  | .str _, .arr _ | .str _, .obj _
  | .arr _, .jsUndefined | .arr _, .null | .arr _, .bool _ | .arr _, .num _ _
  | .arr _, .str _ | .arr _, .obj _
  | .obj _, .jsUndefined | .obj _, .null | .obj _, .bool _ | .obj _, .num _ _
  | .obj _, .str _ | .obj _, .arr _ => .isFalse (fun h => Json.noConfusion h)

/-- Decidable equality on lists of `Json`. -/
def Json.decEqList : (a b : List Json) → Decidable (a = b)
  | [], [] => .isTrue rfl
  | [], _ :: _ => .isFalse (fun h => List.noConfusion h)
  | _ :: _, [] => .isFalse (fun h => List.noConfusion h)
  | x :: xs, y :: ys =>
    match Json.decEq x y, Json.decEqList xs ys with
    | .isTrue h1, .isTrue h2 => .isTrue (by rw [h1, h2])
    | .isFalse h1, _ => .isFalse (fun hh => h1 (by injection hh))
    | _, .isFalse h2 => .isFalse (fun hh => h2 (by injection hh))

/-- Decidable equality on `Json` object field lists. -/
def Json.decEqFields : (a b : List (String × Json)) → Decidable (a = b)
  | [], [] => .isTrue rfl
  | [], _ :: _ => .isFalse (fun h => List.noConfusion h)
  | _ :: _, [] => .isFalse (fun h => List.noConfusion h)
  | (k, v) :: fs, (k', v') :: gs =>
    match String.decEq k k', Json.decEq v v', Json.decEqFields fs gs with
    | .isTrue h1, .isTrue h2, .isTrue h3 => .isTrue (by rw [h1, h2, h3])
    | .isFalse h1, _, _ =>
      .isFalse (fun hh => by injection hh with hp hs; exact h1 (congrArg Prod.fst hp))
    | _, .isFalse h2, _ =>
      .isFalse (fun hh => by injection hh with hp hs; exact h2 (congrArg Prod.snd hp))
    | _, _, .isFalse h3 => .isFalse (fun hh => h3 (by injection hh))

end

instance : DecidableEq Json := Json.decEq

namespace Json

/-- JS truthiness: `undefined`, `null`, `false`, `0`, `''` are falsy;
every object and array (even empty) is truthy. -/
def truthy : Json → Bool
  | .jsUndefined => false
  | .null => false
  | .bool b => b
  | .num m _ => m != 0
  | .str s => s ≠ ""
  | .arr _ => true
  | .obj _ => true

/-- `typeof v === 'string'`. -/
def isStr : Json → Bool
  | .str _ => true
  | _ => false

/-- `typeof v === 'object'` (true for `null`, arrays and objects). -/
def isObjTypeof : Json → Bool
  | .null => true
  | .arr _ => true
  | .obj _ => true
  | _ => false

/-- `Array.isArray(v)`. -/
def isArr : Json → Bool
  | .arr _ => true
  | _ => false

/-- Property lookup on a value already known not to be `null`/`undefined`:
`undefined` when absent or when the value has no properties. -/
def prop : Json → String → Json
  | .obj fields, k => (fields.lookup k).getD .jsUndefined
  | _, _ => .jsUndefined

/-- Property access `v.k`: throws (`TypeError`) on `null`/`undefined`. -/
def getProp : Json → String → Except Unit Json
  | .jsUndefined, _ => .error ()
  | .null, _ => .error ()
  | j, k => .ok (j.prop k)

/-- The `in` operator restricted to objects (`'k' in v`); the embedded
code only uses it behind a truthy-object guard. -/
def hasProp : Json → String → Bool
  | .obj fields, k => (fields.lookup k).isSome
  | _, _ => false

/-- `v.length` as the embedded code reads it: a number for strings and
arrays, `undefined` otherwise. -/
def lengthProp : Json → Json
  | .str s => .num s.length 0
  | .arr items => .num items.length 0
  | _ => .jsUndefined

end Json

/-- Strip trailing decimal zeros of `m * 10 ^ e` while `e < 0`. -/
def normNum (m e : Int) (fuel : Nat) : Int × Int :=
  match fuel with
  | 0 => (m, e)
  | fuel + 1 =>
    if e < 0 ∧ m % 10 = 0 ∧ m ≠ 0 then normNum (m / 10) (e + 1) fuel else (m, e)

/-- Decimal rendering of the number `m * 10 ^ e` (JS `String(number)` for
the values the embedded code produces). -/
def numToString (m e : Int) : String :=
  let (m, e) := normNum m e 64
  if e ≥ 0 then
    toString m ++ String.mk (List.replicate e.toNat '0')
  else
    let digits := toString m.natAbs
    let sign := if m < 0 then "-" else ""
    let k := (-e).toNat
    if digits.length > k then
      sign ++ (digits.take (digits.length - k)) ++ "." ++ (digits.drop (digits.length - k))
    else
      sign ++ "0." ++ String.mk (List.replicate (k - digits.length) '0') ++ digits

mutual

/-- JS `String(v)` coercion. -/
def jsToString : Json → String
  | .jsUndefined => "undefined"
  | .null => "null"
  | .bool b => if b then "true" else "false"
  | .num m e => numToString m e
  | .str s => s
  | .arr items => jsArrToString items
  | .obj _ => "[object Object]"

/-- Array `toString`: elements joined by `,`, with `null`/`undefined`
elements rendered as the empty string. -/
def jsArrToString : List Json → String
  | [] => ""
  | [x] => jsArrElem x
  | x :: xs => jsArrElem x ++ "," ++ jsArrToString xs

/-- One element of an array being stringified. -/
def jsArrElem : Json → String
  | .jsUndefined => ""
  | .null => ""
  | j => jsToString j

end

/-- Escape one character for a JSON string literal. -/
def jsonEscapeChar (c : Char) : String :=
  if c = '"' then "\\\""
  else if c = '\\' then "\\\\"
  else if c = '\n' then "\\n"
  else if c = '\r' then "\\r"
  else if c = '\t' then "\\t"
  else String.mk [c]

/-- JSON string literal. -/
def jsonQuote (s : String) : String :=
  "\"" ++ String.join (s.data.map jsonEscapeChar) ++ "\""

mutual

/-- `JSON.stringify` (on the values the embedded code serializes:
`undefined` never occurs as a serialized value; as an object field value
it is omitted, which the caller-side builders already ensure). -/
def stringify : Json → String
  | .jsUndefined => "null"
  | .null => "null"
  | .bool b => if b then "true" else "false"
  | .num m e => numToString m e
  | .str s => jsonQuote s
  | .arr items => "[" ++ stringifyArr items ++ "]"
  | .obj fields => "\x7b" ++ stringifyObj fields ++ "\x7d"

/-- Serialize array elements, comma separated. -/
def stringifyArr : List Json → String
  | [] => ""
  | [x] => stringify x
  | x :: xs => stringify x ++ "," ++ stringifyArr xs

/-- Serialize object fields, comma separated, in field order. -/
def stringifyObj : List (String × Json) → String
  | [] => ""
  | [(k, v)] => jsonQuote k ++ ":" ++ stringify v
  | (k, v) :: fs => jsonQuote k ++ ":" ++ stringify v ++ "," ++ stringifyObj fs

end

/-! ## A model of `JSON.parse` (strict JSON grammar, fuel-based) -/

/-- Skip JSON whitespace. -/
def skipWs : List Char → List Char
  | c :: cs => if c = ' ' ∨ c = '\n' ∨ c = '\t' ∨ c = '\r' then skipWs cs else c :: cs
  | [] => []

/-- Hex digit value. -/
def hexVal (c : Char) : Option Nat :=
  if '0' ≤ c ∧ c ≤ '9' then some (c.toNat - '0'.toNat)
  else if 'a' ≤ c ∧ c ≤ 'f' then some (c.toNat - 'a'.toNat + 10)
  else if 'A' ≤ c ∧ c ≤ 'F' then some (c.toNat - 'A'.toNat + 10)
  else none

/-- Four hex digits. -/
def parseHex4 : List Char → Option (Nat × List Char)
  | a :: b :: c :: d :: rest => do
    let x ← hexVal a
    let y ← hexVal b
    let z ← hexVal c
    let w ← hexVal d
    pure (((x * 16 + y) * 16 + z) * 16 + w, rest)
  | _ => none

/-- Unescape one short escape character, `none` if invalid. -/
def unescapeChar (c : Char) : Option Char :=
  if c = '"' then some '"'
  else if c = '\\' then some '\\'
  else if c = '/' then some '/'
  else if c = 'b' then some (Char.ofNat 8)
  else if c = 'f' then some (Char.ofNat 12)
  else if c = 'n' then some '\n'
  else if c = 'r' then some '\r'
  else if c = 't' then some '\t'
  else none

/-- Body of a JSON string literal, after the opening quote. -/
def parseStringBody : Nat → List Char → Option (String × List Char)
  | 0, _ => none
  | _ + 1, [] => none
  | fuel + 1, c :: cs =>
    if c = '"' then some ("", cs)
    else if c = '\\' then
      match cs with
      | [] => none
      | e :: cs' =>
        if e = 'u' then do
          let (n, rest) ← parseHex4 cs'
          let (s, r) ← parseStringBody fuel rest
          pure (String.mk [Char.ofNat n] ++ s, r)
        else do
          let ch ← unescapeChar e
          let (s, r) ← parseStringBody fuel cs'
          pure (String.mk [ch] ++ s, r)
    else if c.toNat < 32 then none
    else do
      let (s, r) ← parseStringBody fuel cs
      pure (String.mk [c] ++ s, r)

/-- Take a maximal run of decimal digits. -/
def takeDigits : List Char → List Char × List Char
  | c :: cs =>
    if c.isDigit then
      let (ds, r) := takeDigits cs
      (c :: ds, r)
    else ([], c :: cs)
  | [] => ([], [])

/-- Digit list to `Nat`. -/
def digitsToNat (ds : List Char) : Nat :=
  ds.foldl (fun acc c => acc * 10 + (c.toNat - '0'.toNat)) 0

/-- JSON integer part (after an optional sign): `0` or a nonzero-led run. -/
def parseIntDigits : List Char → Option (List Char × List Char)
  | '0' :: rest => some (['0'], rest)
  | c :: rest =>
    if c.isDigit then
      let (ds, r) := takeDigits rest
      some (c :: ds, r)
    else none
  | [] => none

/-- Optional JSON fraction part; returns its digits (empty when absent). -/
def parseFrac : List Char → Option (List Char × List Char)
  | '.' :: r =>
    match takeDigits r with
    | ([], _) => none
    | (ds, r') => some (ds, r')
  | cs => some ([], cs)

/-- Optional JSON exponent part (as a signed integer, zero when absent). -/
def parseExp : List Char → Option (Int × List Char)
  | c :: r =>
    if c = 'e' ∨ c = 'E' then
      let (sgn, r1) : Int × List Char :=
        match r with
        | '+' :: t => (1, t)
        | '-' :: t => (-1, t)
        | _ => (1, r)
      match takeDigits r1 with
      | ([], _) => none
      | (ds, r2) => some (sgn * (digitsToNat ds : Int), r2)
    else some (0, c :: r)
  | [] => some (0, [])

/-- A JSON number; yields `Json.num m e` with value `m * 10 ^ e`. -/
def parseNumber (cs : List Char) : Option (Json × List Char) :=
  let (neg, cs1) : Bool × List Char :=
    match cs with
    | '-' :: r => (true, r)
    | _ => (false, cs)
  match parseIntDigits cs1 with
  | none => none
  | some (ids, cs2) =>
    match parseFrac cs2 with
    | none => none
    | some (fds, cs3) =>
      match parseExp cs3 with
      | none => none
      | some (ex, cs4) =>
        let mag : Int := digitsToNat (ids ++ fds)
        let m : Int := if neg then -mag else mag
        some (.num m (ex - fds.length), cs4)

mutual

/-- One JSON value (leading whitespace allowed). -/
def parseValue : Nat → List Char → Option (Json × List Char)
  | 0, _ => none
  | fuel + 1, cs =>
    match skipWs cs with
    | 'n' :: 'u' :: 'l' :: 'l' :: r => some (.null, r)
    | 't' :: 'r' :: 'u' :: 'e' :: r => some (.bool true, r)
    | 'f' :: 'a' :: 'l' :: 's' :: 'e' :: r => some (.bool false, r)
    | '"' :: r =>
      match parseStringBody (r.length + 1) r with
      | some (s, r') => some (.str s, r')
      | none => none
    | '[' :: r =>
      match skipWs r with
      | ']' :: r' => some (.arr [], r')
      | r' =>
        match parseElems fuel r' with
        | some (vs, r'') => some (.arr vs, r'')
        | none => none
    | '{' :: r =>
      match skipWs r with
      | '}' :: r' => some (.obj [], r')
      | r' =>
        match parseMembers fuel r' with
        | some (fs, r'') => some (.obj fs, r'')
        | none => none
    | cs' => parseNumber cs'

/-- Array elements up to and including the closing `]`. -/
def parseElems : Nat → List Char → Option (List Json × List Char)
  | 0, _ => none
  | fuel + 1, cs => do
    let (v, r) ← parseValue fuel cs
    match skipWs r with
    | ',' :: r' => do
      let (vs, r'') ← parseElems fuel r'
      pure (v :: vs, r'')
    | ']' :: r' => pure ([v], r')
    | _ => none

/-- Object members up to and including the closing `}`. -/
def parseMembers : Nat → List Char → Option (List (String × Json) × List Char)
  | 0, _ => none
  | fuel + 1, cs =>
    match skipWs cs with
    | '"' :: r => do
      let (k, r1) ← parseStringBody (r.length + 1) r
      match skipWs r1 with
      | ':' :: r2 => do
        let (v, r3) ← parseValue fuel r2
        match skipWs r3 with
        | ',' :: r4 => do
          let (fs, r5) ← parseMembers fuel r4
          pure ((k, v) :: fs, r5)
        | '}' :: r4 => pure ([(k, v)], r4)
        | _ => none
      | _ => none
    | _ => none

end

/-- `JSON.parse(s)`: `none` models a thrown `SyntaxError`. -/
def parseJson (s : String) : Option Json :=
  match parseValue (s.length + 4) s.data with
  | some (v, rest) => if skipWs rest = [] then some v else none
  | none => none

/-- `JSON.parse(v)` on an arbitrary value first coerces it to a string. -/
def parseJsonValue (v : Json) : Option Json :=
  parseJson (jsToString v)

/-! ## `formatResponseAsCompletion` (Responses variant, src/services/openaiService.ts)

Property access on the `response` argument throws exactly when `response`
is `null`/`undefined`; the embedding hoists that single check and uses the
pure `Json.prop` afterwards.  `Date.now()` is the explicit `now`
parameter, appearing (as in the source) only in the `created` field. -/

namespace Json

/-- The underlying list of an array value (`[]` otherwise). -/
def asArr : Json → List Json
  | .arr items => items
  | _ => []

/-- The underlying string of a string value (`""` otherwise). -/
def asString : Json → String
  | .str s => s
  | _ => ""

end Json

/-- The `chat.completion` object literal shape shared by every return of
`formatResponseAsCompletion`: one choice at index 0. -/
def completionShell (id : Json) (now : Nat) (model : Json) (message : Json)
    (finish : String) : Json :=
  .obj [("id", id), ("object", .str "chat.completion"), ("created", .num now 0),
        ("model", model),
        ("choices", .arr [.obj [("index", .num 0 0), ("message", message),
                                ("finish_reason", .str finish)]])]

/-- `{role: 'assistant', content: c}`. -/
def assistantMsg (c : Json) : Json :=
  .obj [("role", .str "assistant"), ("content", c)]

/-- `{role: 'assistant', content: null, function_call: {name, arguments}}`. -/
def fcMsg (name args : Json) : Json :=
  .obj [("role", .str "assistant"), ("content", .null),
        ("function_call", .obj [("name", name), ("arguments", args)])]

/-- Predicate of the source's first `find`:
`item && typeof item === 'object' && (item.type === 'function_call' || item.type === 'function_tool_call')`. -/
def isFnCallItem (item : Json) : Bool :=
  item.truthy && item.isObjTypeof &&
    (item.prop "type" == Json.str "function_call" ||
     item.prop "type" == Json.str "function_tool_call")

/-- Predicate of the source's assistant-message `find`:
`item && typeof item === 'object' && item.type === 'message' && item.role === 'assistant'`. -/
def isAssistantMsgItem (item : Json) : Bool :=
  item.truthy && item.isObjTypeof && item.prop "type" == Json.str "message" &&
    item.prop "role" == Json.str "assistant"

/-- `name` selection of the function-call branch:
`functionCall.name || (functionCall.call_id ? functionCall.call_id.split('_')[0] : 'unknown')`;
`.split` on a non-string `call_id` throws. -/
def fcSelectName (fc : Json) : Except Unit Json :=
  if (fc.prop "name").truthy then .ok (fc.prop "name")
  else if (fc.prop "call_id").truthy then
    match fc.prop "call_id" with
    | .str s => .ok (.str ((s.splitOn "_").headD ""))
    | _ => .error ()
  else .ok (.str "unknown")

/-- The assistant-message fragment loop:
`for (const content of assistantMessage.content) { if (content && typeof content === 'object') { if ((content.type === 'output_text' || content.type === 'text') && 'text' in content) textContent += content.text || '' } }`. -/
def accumAssistantFragments (acc : String) : List Json → String
  | [] => acc
  | c :: cs =>
    let acc' :=
      if c.truthy && c.isObjTypeof &&
         (c.prop "type" == Json.str "output_text" || c.prop "type" == Json.str "text") &&
         c.hasProp "text" then
        acc ++ (if (c.prop "text").truthy then jsToString (c.prop "text") else "")
      else acc
    accumAssistantFragments acc' cs

/-- `item.content.some(c => c.type === 'output_text' || c.type === 'text')`:
`c.type` throws when `c` is `null`/`undefined`; `some` short-circuits. -/
def someTextFragment : List Json → Except Unit Bool
  | [] => .ok false
  | c :: cs =>
    match c.getProp "type" with
    | .error e => .error e
    | .ok t =>
      if t == Json.str "output_text" || t == Json.str "text" then .ok true
      else someTextFragment cs

/-- Predicate of the source's `filter` over `response.output` in the
no-assistant-message branch. -/
def isTextItem (item : Json) : Except Unit Bool :=
  if !(item.truthy && item.isObjTypeof) then .ok false
  else if item.prop "type" == Json.str "output_text" then .ok true
  else if item.prop "type" == Json.str "message" && (item.prop "content").truthy &&
          (item.prop "content").isArr then
    someTextFragment (item.prop "content").asArr
  else .ok false

/-- `response.output.filter(...)` with the (possibly throwing) predicate
above, evaluated left to right. -/
def filterTextItems : List Json → Except Unit (List Json)
  | [] => .ok []
  | x :: xs =>
    match isTextItem x with
    | .error e => .error e
    | .ok b =>
      match filterTextItems xs with
      | .error e => .error e
      | .ok rest => .ok (if b then x :: rest else rest)

/-- Inner loop over a `message` item's content array:
`if ((content.type === 'output_text' || content.type === 'text') && typeof content.text === 'string') textContent += content.text`;
`content.type` throws on a `null`/`undefined` fragment. -/
def accumMsgFragments (acc : String) : List Json → Except Unit String
  | [] => .ok acc
  | c :: cs =>
    match c.getProp "type" with
    | .error e => .error e
    | .ok t =>
      let acc' :=
        if (t == Json.str "output_text" || t == Json.str "text") &&
           (c.prop "text").isStr then
          acc ++ (c.prop "text").asString
        else acc
      accumMsgFragments acc' cs

/-- Loop over the filtered `textItems`. -/
def accumTextItems (acc : String) : List Json → Except Unit String
  | [] => .ok acc
  | item :: rest =>
    if item.prop "type" == Json.str "output_text" && (item.prop "text").isStr then
      accumTextItems (acc ++ (item.prop "text").asString) rest
    else if item.prop "type" == Json.str "message" && (item.prop "content").isArr then
      match accumMsgFragments acc (item.prop "content").asArr with
      | .error e => .error e
      | .ok acc' => accumTextItems acc' rest
    else accumTextItems acc rest

/-- The `textContent` computation of `formatResponseAsCompletion` from
`let textContent = ''` on: assistant-message extraction, then the
no-assistant fallback over `output` items. -/
def extractTextContent (items : List Json) : Except Unit String :=
  match items.find? isAssistantMsgItem with
  | some am =>
    if (am.prop "content").isStr then .ok (am.prop "content").asString
    else if (am.prop "content").isArr then
      .ok (accumAssistantFragments "" (am.prop "content").asArr)
    else .ok ""
  | none =>
    match filterTextItems items with
    | .error e => .error e
    | .ok tis => accumTextItems "" tis

/-- The `stop`-completion tail of the text path: apply the top-level
`output_text` last resort and wrap in the completion literal. -/
def formatTextPath (now : Nat) (responseId responseModel outText : Json)
    (items : List Json) : Except Unit Json :=
  match extractTextContent items with
  | .error e => .error e
  | .ok tc =>
    let tc := if tc = "" ∧ outText.truthy then jsToString outText else tc
    .ok (completionShell responseId now responseModel (assistantMsg (.str tc)) "stop")

/-- The `try` block of `formatResponseAsCompletion`. -/
def formatBody (now : Nat) (response : Json) : Except Unit Json :=
  match response with
  | .jsUndefined => .error ()
  | .null => .error ()
  | _ =>
    let responseId := if (response.prop "id").isStr then response.prop "id"
                      else Json.str "response_id"
    let responseModel := if (response.prop "model").isStr then response.prop "model"
                         else Json.str "unknown_model"
    let outText := response.prop "output_text"
    if outText.isStr then
      .ok (completionShell responseId now responseModel (assistantMsg outText) "stop")
    else
      let output := response.prop "output"
      if !output.isArr then
        .ok (completionShell responseId now responseModel (assistantMsg (.str "")) "stop")
      else
        let items := output.asArr
        match items.find? isFnCallItem with
        | some fc =>
          if ((fc.prop "name").isStr || (fc.prop "call_id").isStr) &&
             ((fc.prop "arguments").isStr || (fc.prop "call_id").isStr) then
            match fcSelectName fc with
            | .error e => .error e
            | .ok name =>
              let args := if (fc.prop "arguments").truthy then fc.prop "arguments"
                          else Json.str "{}"
              .ok (completionShell responseId now responseModel (fcMsg name args)
                    "function_call")
          else formatTextPath now responseId responseModel outText items
        | none => formatTextPath now responseId responseModel outText items

/-- The catch-all fallback completion of `formatResponseAsCompletion`. -/
def fallbackCompletion (now : Nat) : Json :=
  completionShell (.str "fallback_id") now (.str "unknown")
    (assistantMsg (.str "Error formatting response. Please try again.")) "stop"

/-- `formatResponseAsCompletion(response)` at clock reading `now`:
the `try` body, with any thrown error replaced by the fallback. -/
def formatResponseAsCompletion (now : Nat) (response : Json) : Json :=
  match formatBody now response with
  | .ok j => j
  | .error _ => fallbackCompletion now

/-! ## Shared request-side data model -/

/-- A chat message as the orchestrator handles it.  `content = none`
models JS `null`; the optional `name` is set on `function`-role messages. -/
structure ChatMessage where
  role : String
  content : Option String
  name : Option String := none
  deriving Repr, DecidableEq

/-- Request context threaded to tool execution. -/
structure RequestContext where
  userId : String
  channel : String
  appId : String
  deriving Repr, DecidableEq

/-- A registered tool: `(appId, userId, channel, parsedArgs) -> string`. -/
def ToolFn : Type := String → String → String → Json → String

/-- One performed tool execution, recorded in the trace. -/
structure ToolExec where
  name : String
  appId : String
  userId : String
  channel : String
  args : Json
  result : String
  deriving Repr, DecidableEq

/-- The synthetic `{role: 'function', name, content: result}` message. -/
def functionRoleMsg (name result : String) : ChatMessage :=
  ⟨"function", some result, some name⟩

/-! ## Variant A (Chat Completions): non-streaming path -/

/-- `message.function_call` of a terminal Variant A choice. -/
structure FunctionCallA where
  name : String
  arguments : String
  deriving Repr, DecidableEq

/-- Terminal Variant A message (only the field the orchestrator reads). -/
structure MessageA where
  function_call : Option FunctionCallA
  deriving Repr, DecidableEq

/-- Terminal Variant A choice. -/
structure ChoiceA where
  finish_reason : Option String
  message : Option MessageA
  deriving Repr, DecidableEq

/-- Terminal Variant A response. -/
structure ResponseA where
  choices : List ChoiceA
  deriving Repr, DecidableEq

deriving instance DecidableEq for Except

/-- Trace of one Variant A non-streaming request: the returned (or thrown)
result, the tool executions performed, and every backend call issued as
`(messages, stream flag)`. -/
structure NonStreamTraceA where
  result : Except String ResponseA
  toolCalls : List ToolExec
  backendCalls : List (List ChatMessage × Bool)
  deriving Repr, DecidableEq

/-- `processNonStreamingRequest` (Chat Completions variant).  `create`
is the oracle for `openai.chat.completions.create`; the source calls it
with `stream: false` both times and omits `functions` on the follow-up
call, whose response is returned without any second detection pass. -/
def processNonStreamingRequest_A (create : List ChatMessage → Bool → ResponseA)
    (functionMap : String → Option ToolFn) (fullMessages : List ChatMessage)
    (ctx : RequestContext) : NonStreamTraceA :=
  let response := create fullMessages false
  let firstCall := (fullMessages, false)
  if response.choices.head?.bind (·.finish_reason) = some "function_call" then
    match response.choices.head?.bind (fun c => c.message.bind (·.function_call)) with
    | some fc =>
      if fc.name ≠ "" ∧ fc.arguments ≠ "" then
        match functionMap fc.name with
        | none => ⟨.ok response, [], [firstCall]⟩
        | some fn =>
          match parseJson fc.arguments with
          | none => ⟨.error "Invalid function call arguments", [], [firstCall]⟩
          | some parsedArgs =>
            let functionResult := fn ctx.appId ctx.userId ctx.channel parsedArgs
            let updatedMessages := fullMessages ++ [functionRoleMsg fc.name functionResult]
            let finalResponse := create updatedMessages false
            ⟨.ok finalResponse,
             [⟨fc.name, ctx.appId, ctx.userId, ctx.channel, parsedArgs, functionResult⟩],
             [firstCall, (updatedMessages, false)]⟩
      else ⟨.ok response, [], [firstCall]⟩
    | none => ⟨.ok response, [], [firstCall]⟩
  else ⟨.ok response, [], [firstCall]⟩

/-! ## Variant A (Chat Completions): streaming path -/

/-- `toolCall.function` inside a streamed part. -/
structure StreamToolCallA where
  name : String
  arguments : String
  deriving Repr, DecidableEq

/-- `choice.message` of a streamed part; `tool_calls` may be absent. -/
structure StreamMessageA where
  tool_calls : Option (List StreamToolCallA)
  deriving Repr, DecidableEq

/-- A streamed part's choice; the source reads `choice.message.tool_calls`
without a guard, so an absent `message` throws. -/
structure StreamChoiceA where
  finish_reason : Option String
  message : Option StreamMessageA
  deriving Repr, DecidableEq

/-- One streamed Variant A part. -/
structure PartA where
  choices : List StreamChoiceA
  deriving Repr, DecidableEq

/-- The part as `JSON.stringify` serializes it (absent `message` omitted,
`null` `finish_reason` kept). -/
def StreamToolCallA.toJson (tc : StreamToolCallA) : Json :=
  .obj [("function", .obj [("name", .str tc.name), ("arguments", .str tc.arguments)])]

/-- Serialization of a streamed choice's message. -/
def StreamMessageA.toJson (m : StreamMessageA) : Json :=
  .obj (match m.tool_calls with
        | some tcs => [("tool_calls", .arr (tcs.map StreamToolCallA.toJson))]
        | none => [])

/-- Serialization of a streamed choice. -/
def StreamChoiceA.toJson (c : StreamChoiceA) : Json :=
  .obj ([("finish_reason", match c.finish_reason with
                           | some s => .str s
                           | none => .null)] ++
        (match c.message with
         | some m => [("message", m.toJson)]
         | none => []))

/-- Serialization of a streamed part. -/
def PartA.toJson (p : PartA) : Json :=
  .obj [("choices", .arr (p.choices.map StreamChoiceA.toJson))]

/-- One SSE frame `data: <body>\n\n`. -/
def sseFrame (body : String) : String := "data: " ++ body ++ "\n\n"

/-- The terminating SSE frame `data: [DONE]\n\n`. -/
def doneFrame : String := "data: [DONE]\n\n"

/-- The frame the Variant A loop enqueues for a part. -/
def frameOfPartA (p : PartA) : String := sseFrame (stringify p.toJson)

/-- Trace of a streaming request: the SSE frames written in order,
whether `controller.error` was reached, the tool executions, and the
backend calls issued (beyond the initial one for the loop runner). -/
structure StreamTrace where
  frames : List String
  errored : Bool
  toolCalls : List ToolExec
  backendCalls : List (List ChatMessage × Bool)
  deriving Repr, DecidableEq

/-- JS truthiness of the accumulated `functionCallName`/`finish_reason`
(an optional string). -/
def optStrTruthy : Option String → Bool
  | some s => s ≠ ""
  | none => false

/-- The `fc?.forEach(...)` accumulation of partial tool-call name and
arguments: a nonempty name overwrites, nonempty arguments append. -/
def accumToolCalls (st : Option String × String) (tcs : List StreamToolCallA) :
    Option String × String :=
  tcs.foldl
    (fun st tc =>
      (if tc.name ≠ "" then some tc.name else st.1,
       if tc.arguments ≠ "" then st.2 ++ tc.arguments else st.2))
    st

/-- The body of Variant A's `if (part.choices[0].finish_reason)` branch:
attempt the accumulated function call, splice the follow-up stream's
frames when the call succeeds, then emit `[DONE]` and close.  A parse
failure leaves `parsedArgs` undefined, and the source then guards
execution with `if (parsedArgs)` — a JS truthiness test — so a payload
that parses to a falsy value (`0`, `false`, `null`, `""`) is skipped
exactly like a parse failure: no execution, no follow-up call, straight
to `[DONE]`. -/
def finishStepA (create : List ChatMessage → Bool → List PartA)
    (functionMap : String → Option ToolFn) (fullMessages : List ChatMessage)
    (ctx : RequestContext) (name? : Option String) (args : String)
    (pf : String) : StreamTrace :=
  if optStrTruthy name? ∧ args ≠ "" then
    let n := name?.getD ""
    match functionMap n with
    | some fn =>
      match parseJson args with
      | none => ⟨[pf, doneFrame], false, [], []⟩
      | some parsedArgs =>
        if parsedArgs.truthy then
          let functionResult := fn ctx.appId ctx.userId ctx.channel parsedArgs
          let updatedMessages := fullMessages ++ [functionRoleMsg n functionResult]
          let follow := create updatedMessages true
          ⟨pf :: (follow.map frameOfPartA ++ [doneFrame]), false,
           [⟨n, ctx.appId, ctx.userId, ctx.channel, parsedArgs, functionResult⟩],
           [(updatedMessages, true)]⟩
        else ⟨[pf, doneFrame], false, [], []⟩
    | none => ⟨[pf, doneFrame], false, [], []⟩
  else ⟨[pf, doneFrame], false, [], []⟩

/-- The `for await (const part of initialResponse)` loop of Variant A's
`processStreamingRequest`, with accumulator state `(name?, args)`.
Reading `choice.message.tool_calls` with no `message` and reading
`part.choices[0].finish_reason` with no choice both throw, reaching the
`catch` (`controller.error`); a loop that ends without a truthy
`finish_reason` falls off the iterator with no `[DONE]` frame. -/
def runLoopA (create : List ChatMessage → Bool → List PartA)
    (functionMap : String → Option ToolFn) (fullMessages : List ChatMessage)
    (ctx : RequestContext) (name? : Option String) (args : String) :
    List PartA → StreamTrace
  | [] => ⟨[], false, [], []⟩
  | part :: rest =>
    let choice? := part.choices.head?
    let delta := choice?.bind (·.finish_reason)
    let stE : Except Unit (Option String × String) :=
      if delta = some "function_call" then
        match choice? with
        | some choice =>
          match choice.message with
          | none => .error ()
          | some msg =>
            match msg.tool_calls with
            | none => .ok (name?, args)
            | some tcs => .ok (accumToolCalls (name?, args) tcs)
        | none => .ok (name?, args)
      else .ok (name?, args)
    match stE with
    | .error _ => ⟨[], true, [], []⟩
    | .ok (name?', args') =>
      let pf := frameOfPartA part
      match part.choices.head? with
      | none => ⟨[pf], true, [], []⟩
      | some c0 =>
        if optStrTruthy c0.finish_reason then
          finishStepA create functionMap fullMessages ctx name?' args' pf
        else
          let t := runLoopA create functionMap fullMessages ctx name?' args' rest
          ⟨pf :: t.frames, t.errored, t.toolCalls, t.backendCalls⟩

/-- `processStreamingRequest` (Chat Completions variant): issue the
initial streaming call, then run the loop with empty accumulators. -/
def processStreamingRequest_A (create : List ChatMessage → Bool → List PartA)
    (functionMap : String → Option ToolFn) (fullMessages : List ChatMessage)
    (ctx : RequestContext) : StreamTrace :=
  let initial := create fullMessages true
  let t := runLoopA create functionMap fullMessages ctx none "" initial
  ⟨t.frames, t.errored, t.toolCalls, (fullMessages, true) :: t.backendCalls⟩

/-! ## Variant B (Responses API): non-streaming path -/

/-- One line of the flattened transcript (`${msg.content}` renders JS
`null` as the text `null`, an absent `name` as `undefined`). -/
def flattenMessage (msg : ChatMessage) : String :=
  let c := match msg.content with
           | some s => s
           | none => "null"
  if msg.role = "system" then "System: " ++ c
  else if msg.role = "user" then "User: " ++ c
  else if msg.role = "assistant" then "Assistant: " ++ c
  else if msg.role = "function" then
    "Function (" ++ (match msg.name with
                     | some nm => nm
                     | none => "undefined") ++ "): " ++ c
  else msg.role ++ ": " ++ c

/-- `fullMessages.map(...).join('\n\n')`. -/
def flattenMessages (msgs : List ChatMessage) : String :=
  String.intercalate "\n\n" (msgs.map flattenMessage)

/-- Effects of `item.content.map((c) => c.type)` inside the structure
log: `c.type` throws on a `null`/`undefined` fragment. -/
def fragTypesEffects : List Json → Except Unit Unit
  | [] => .ok ()
  | c :: cs =>
    match c.getProp "type" with
    | .error e => .error e
    | .ok _ => fragTypesEffects cs

/-- Effects of one element of the `response.output.map(...)` structure
log: `item.type` throws on `null`/`undefined`, `'role' in item` throws on
a primitive, and the content-type map may throw per fragment. -/
def logItemEffects (item : Json) : Except Unit Unit :=
  match item.getProp "type" with
  | .error e => .error e
  | .ok _ =>
    match item with
    | .obj _ | .arr _ =>
      if item.hasProp "content" ∧ (item.prop "content").isArr then
        fragTypesEffects (item.prop "content").asArr
      else .ok ()
    | _ => .error ()

/-- Effects of the whole structure log over `response.output`. -/
def logOutputEffects : List Json → Except Unit Unit
  | [] => .ok ()
  | item :: rest =>
    match logItemEffects item with
    | .error e => .error e
    | .ok _ => logOutputEffects rest

/-- `response.output.find(item => item.type === 'message' && 'role' in item
&& item.role === 'assistant')`: `item.type` throws on `null`/`undefined`
items; the result is only logged. -/
def findAssistantB : List Json → Except Unit (Option Json)
  | [] => .ok none
  | item :: rest =>
    match item.getProp "type" with
    | .error e => .error e
    | .ok t =>
      if t == Json.str "message" && item.hasProp "role" &&
         item.prop "role" == Json.str "assistant" then .ok (some item)
      else findAssistantB rest

/-- `response.output.find(item => item.type === 'function_call')`:
unguarded, so `item.type` throws on `null`/`undefined` items. -/
def findFnCallB : List Json → Except Unit (Option Json)
  | [] => .ok none
  | item :: rest =>
    match item.getProp "type" with
    | .error e => .error e
    | .ok t =>
      if t == Json.str "function_call" then .ok (some item)
      else findFnCallB rest

/-- Trace of one Variant B non-streaming request; backend calls are
recorded as `(input transcript, tools passed)`. -/
structure NonStreamTraceB where
  result : Except String Json
  toolCalls : List ToolExec
  backendCalls : List (String × Bool)
  deriving Repr, DecidableEq

/-- `processNonStreamingRequest` (Responses variant).  `create` is the
oracle for `openai.responses.create` applied to `(input, tools?)`.  The
whole body sits in a `try` whose `catch` rethrows as
`OpenAI Responses API error: <message>`; a `TypeError` raised by a
property access is modelled with the message `TypeError`.  The first
throwing access on a `null`/`undefined` response is `response.id` in the
receipt log; it throws under exactly the same condition as
`response.output`, which the embedding checks.  After a function-call
item is found, the details log calls `functionArgs.substring(0, 100)`,
which throws a `TypeError` when the item's `arguments` is not a string
(absent included), failing the whole request. -/
def processNonStreamingRequest_B (now : Nat) (create : String → Bool → Json)
    (functionMap : String → Option ToolFn) (model : String)
    (fullMessages : List ChatMessage) (ctx : RequestContext) : NonStreamTraceB :=
  let messageContent := flattenMessages fullMessages
  let response := create messageContent true
  let firstCall := (messageContent, true)
  match response.getProp "output" with
  | .error _ => ⟨.error "OpenAI Responses API error: TypeError", [], [firstCall]⟩
  | .ok output =>
    if ¬ output.truthy ∨ output.lengthProp = Json.num 0 0 then
      let synthetic := Json.obj
        [("id", if (response.prop "id").truthy then response.prop "id"
                else .str "response_id"),
         ("model", if (response.prop "model").truthy then response.prop "model"
                   else .str model),
         ("output", .arr []),
         ("output_text", .str "No content returned from API.")]
      ⟨.ok (formatResponseAsCompletion now synthetic), [], [firstCall]⟩
    else if ¬ output.isArr then
      ⟨.error "OpenAI Responses API error: TypeError", [], [firstCall]⟩
    else
      let items := output.asArr
      match logOutputEffects items with
      | .error _ => ⟨.error "OpenAI Responses API error: TypeError", [], [firstCall]⟩
      | .ok _ =>
        match findAssistantB items with
        | .error _ => ⟨.error "OpenAI Responses API error: TypeError", [], [firstCall]⟩
        | .ok _ =>
          match findFnCallB items with
          | .error _ => ⟨.error "OpenAI Responses API error: TypeError", [], [firstCall]⟩
          | .ok none => ⟨.ok (formatResponseAsCompletion now response), [], [firstCall]⟩
          | .ok (some functionCall) =>
            let functionName := functionCall.prop "name"
            let functionArgs := functionCall.prop "arguments"
            if ¬ functionArgs.isStr then
              ⟨.error "OpenAI Responses API error: TypeError", [], [firstCall]⟩
            else if functionName.truthy then
              match functionMap (jsToString functionName) with
              | none => ⟨.ok (formatResponseAsCompletion now response), [], [firstCall]⟩
              | some fn =>
                match parseJsonValue functionArgs with
                | none =>
                  ⟨.error "OpenAI Responses API error: Invalid function call arguments",
                   [], [firstCall]⟩
                | some parsedArgs =>
                  let functionResult := fn ctx.appId ctx.userId ctx.channel parsedArgs
                  let followUpMessage :=
                    messageContent ++ "\n\nAssistant: I\x27ll call the function \x27" ++
                    jsToString functionName ++ "\x27 with these arguments: " ++
                    jsToString functionArgs ++ "\n\nFunction (" ++
                    jsToString functionName ++ "): " ++ functionResult
                  let finalResponse := create followUpMessage false
                  ⟨.ok (formatResponseAsCompletion now finalResponse),
                   [⟨jsToString functionName, ctx.appId, ctx.userId, ctx.channel,
                     parsedArgs, functionResult⟩],
                   [firstCall, (followUpMessage, false)]⟩
            else ⟨.ok (formatResponseAsCompletion now response), [], [firstCall]⟩

/-! ## Variant B (Responses API): streaming path -/

/-- `part.item` of an `output_item.added` event. -/
structure ItemB where
  type : String
  id : Option String := none
  name : Option String := none
  deriving Repr, DecidableEq

/-- One Responses-API stream event, with the fields the loop reads. -/
structure EventB where
  type : String
  item_id : Option String := none
  delta : Option String := none
  arguments : Option String := none
  text : Option String := none
  item : Option ItemB := none
  response_id : Option String := none
  deriving Repr, DecidableEq

/-- `o || d` on an optional string (`''` is falsy). -/
def orDefault (o : Option String) (d : String) : String :=
  match o with
  | some s => if s ≠ "" then s else d
  | none => d

/-- The `chat.completion.chunk` literal with a `content` delta. -/
def chunkContentB (id : String) (now : Nat) (model : String) (content : String) : Json :=
  .obj [("id", .str id), ("object", .str "chat.completion.chunk"),
        ("created", .num now 0), ("model", .str model),
        ("choices", .arr [.obj [("index", .num 0 0),
                                ("delta", .obj [("content", .str content)]),
                                ("finish_reason", .null)]])]

/-- The chunk literal with a `function_call.arguments` delta. -/
def chunkFnArgsB (id : String) (now : Nat) (model : String) (args : String) : Json :=
  .obj [("id", .str id), ("object", .str "chat.completion.chunk"),
        ("created", .num now 0), ("model", .str model),
        ("choices", .arr [.obj [("index", .num 0 0),
                                ("delta", .obj [("function_call",
                                                 .obj [("arguments", .str args)])]),
                                ("finish_reason", .null)]])]

/-- The chunk literal with a `function_call.name` delta (an absent name is
omitted by `JSON.stringify`). -/
def chunkFnNameB (id : String) (now : Nat) (model : String) (name : Option String) : Json :=
  .obj [("id", .str id), ("object", .str "chat.completion.chunk"),
        ("created", .num now 0), ("model", .str model),
        ("choices", .arr [.obj [("index", .num 0 0),
                                ("delta", .obj [("function_call",
                                                 .obj (match name with
                                                       | some nm => [("name", .str nm)]
                                                       | none => []))]),
                                ("finish_reason", .null)]])]

/-- The chunk literal with an empty delta and a finish reason. -/
def chunkFinishB (id : String) (now : Nat) (model : String) (finish : String) : Json :=
  .obj [("id", .str id), ("object", .str "chat.completion.chunk"),
        ("created", .num now 0), ("model", .str model),
        ("choices", .arr [.obj [("index", .num 0 0), ("delta", .obj []),
                                ("finish_reason", .str finish)]])]

/-- `{error: 'Function call failed'}` enqueued by the inner `catch`. -/
def errorBodyB : Json := .obj [("error", .str "Function call failed")]

/-- Trace of a Variant B streaming request. -/
structure StreamTraceB where
  frames : List String
  toolCalls : List ToolExec
  backendCalls : List (String × Bool)
  deriving Repr, DecidableEq

/-- Frames the follow-up loop forwards: `output_text.delta` events become
content chunks, `response.completed` becomes a `stop` finish chunk, every
other event type is skipped. -/
def followFramesB (now : Nat) (model : String) : List EventB → List String
  | [] => []
  | p :: ps =>
    (if p.type = "response.output_text.delta" then
      [sseFrame (stringify (chunkContentB (orDefault p.item_id "chunk_id") now model
                             (orDefault p.delta "")))]
     else if p.type = "response.completed" then
      [sseFrame (stringify (chunkFinishB (orDefault p.response_id "chunk_id") now model
                             "stop"))]
     else []) ++ followFramesB now model ps

/-- The `for await (const part of stream)` loop of Variant B's
`processStreamingRequest`, with accumulator state
`(functionCallName, functionCallArgs, functionCallInProgress)`.  A
`response.completed` event terminates the loop (tool hand-off, `[DONE]`,
close); a stream that ends without one falls through to the post-loop
`[DONE]`. -/
def runLoopB (create : String → Bool → List EventB)
    (functionMap : String → Option ToolFn) (messageContent : String)
    (model : String) (now : Nat) (ctx : RequestContext)
    (name? : Option String) (args : String) (inProgress : Bool) :
    List EventB → StreamTraceB
  | [] => ⟨[doneFrame], [], []⟩
  | part :: rest =>
    if part.type = "response.output_text.delta" then
      let f := sseFrame (stringify (chunkContentB (orDefault part.item_id "chunk_id")
                          now model (orDefault part.delta "")))
      let t := runLoopB create functionMap messageContent model now ctx name? args
                 inProgress rest
      ⟨f :: t.frames, t.toolCalls, t.backendCalls⟩
    else if part.type = "response.function_call_arguments.delta" then
      let args' := args ++ orDefault part.delta ""
      let f := sseFrame (stringify (chunkFnArgsB (orDefault part.item_id "chunk_id")
                          now model (orDefault part.delta "")))
      let t := runLoopB create functionMap messageContent model now ctx name? args'
                 true rest
      ⟨f :: t.frames, t.toolCalls, t.backendCalls⟩
    else if part.type = "response.function_call_arguments.done" then
      let args' := orDefault part.arguments args
      let f := sseFrame (stringify (chunkFinishB (orDefault part.item_id "chunk_id")
                          now model "function_call"))
      let t := runLoopB create functionMap messageContent model now ctx name? args'
                 true rest
      ⟨f :: t.frames, t.toolCalls, t.backendCalls⟩
    else if part.type = "response.output_item.added" then
      match part.item with
      | some it =>
        if it.type = "function_call" then
          let f := sseFrame (stringify (chunkFnNameB (orDefault it.id "chunk_id")
                              now model it.name))
          let t := runLoopB create functionMap messageContent model now ctx it.name args
                     true rest
          ⟨f :: t.frames, t.toolCalls, t.backendCalls⟩
        else
          runLoopB create functionMap messageContent model now ctx name? args
            inProgress rest
      | none =>
        runLoopB create functionMap messageContent model now ctx name? args
          inProgress rest
    else if part.type = "response.output_text.done" then
      runLoopB create functionMap messageContent model now ctx name? args
        inProgress rest
    else if part.type = "response.refusal.delta" then
      let f := sseFrame (stringify (chunkContentB (orDefault part.item_id "chunk_id")
                          now model (orDefault part.delta "")))
      let t := runLoopB create functionMap messageContent model now ctx name? args
                 inProgress rest
      ⟨f :: t.frames, t.toolCalls, t.backendCalls⟩
    else if part.type = "response.completed" then
      if inProgress ∧ optStrTruthy name? then
        let n := name?.getD ""
        match functionMap n with
        | some fn =>
          match parseJson args with
          | none => ⟨[sseFrame (stringify errorBodyB), doneFrame], [], []⟩
          | some parsedArgs =>
            let functionResult := fn ctx.appId ctx.userId ctx.channel parsedArgs
            let followUpMessage :=
              messageContent ++ "\n\nAssistant: I\x27ll call the function \x27" ++ n ++
              "\x27 with these arguments: " ++ args ++ "\n\nFunction (" ++ n ++
              "): " ++ functionResult
            let follow := create followUpMessage false
            ⟨followFramesB now model follow ++ [doneFrame],
             [⟨n, ctx.appId, ctx.userId, ctx.channel, parsedArgs, functionResult⟩],
             [(followUpMessage, false)]⟩
        | none => ⟨[doneFrame], [], []⟩
      else
        ⟨[sseFrame (stringify (chunkFinishB (orDefault part.response_id "chunk_id")
                      now model "stop")), doneFrame], [], []⟩
    else
      runLoopB create functionMap messageContent model now ctx name? args
        inProgress rest

/-- `processStreamingRequest` (Responses variant): flatten the messages,
issue the initial streaming call (with tools), run the loop with empty
accumulators. -/
def processStreamingRequest_B (now : Nat) (create : String → Bool → List EventB)
    (functionMap : String → Option ToolFn) (model : String)
    (fullMessages : List ChatMessage) (ctx : RequestContext) : StreamTraceB :=
  let messageContent := flattenMessages fullMessages
  let initial := create messageContent true
  let t := runLoopB create functionMap messageContent model now ctx none "" false initial
  ⟨t.frames, t.toolCalls, (messageContent, true) :: t.backendCalls⟩

/-! ## HTTP route (`src/routes/chatCompletion.ts`) and auth middleware -/

/-- Outcome of the `/completion` route handler up to (and including) the
call into `processChatCompletion`. -/
inductive RouteOutcome where
  | badRequest (error : String)
  | proceed (messages model stream channel userId appId : Json)
  | serverError
  deriving Repr, DecidableEq

/-- A destructuring default: applied only when the property is absent
(JS `undefined`), never for `null`, `''`, `0` or `false`. -/
def defaultIfUndef (v d : Json) : Json :=
  match v with
  | .jsUndefined => d
  | v => v

/-- The `/completion` handler of `src/routes/chatCompletion.ts` up to the
`processChatCompletion` call: destructure `req.body` with defaults, check
`messages` and `appId`, and either reject with a 400 error or proceed
with the destructured values.  Destructuring a `null`/`undefined` body
throws, reaching the handler's 500 branch. -/
def routeCompletion (body : Json) : RouteOutcome :=
  match body with
  | .null => .serverError
  | .jsUndefined => .serverError
  | _ =>
    let messages := body.prop "messages"
    let model := defaultIfUndef (body.prop "model") (.str "gpt-4o-mini")
    let stream := defaultIfUndef (body.prop "stream") (.bool false)
    let channel := defaultIfUndef (body.prop "channel") (.str "ccc")
    let userId := defaultIfUndef (body.prop "userId") (.str "111")
    let appId := defaultIfUndef (body.prop "appId")
                   (.str "20b7c51ff4c644ab80cf5a4e646b0537")
    if ¬ messages.truthy then .badRequest "Missing \"messages\" in request body"
    else if ¬ appId.truthy then .badRequest "Missing \"appId\" in request body"
    else .proceed messages model stream channel userId appId

/-- Outcome of the `validateRequest` middleware. -/
inductive AuthOutcome where
  | forbidden
  | next
  | hang
  deriving Repr, DecidableEq

/-- Remove the first occurrence of `pat` from a character list
(JS `String.prototype.replace` with a string pattern). -/
def removeFirstChars (pat : List Char) : List Char → List Char
  | [] => []
  | c :: cs =>
    if pat.isPrefixOf (c :: cs) then (c :: cs).drop pat.length
    else c :: removeFirstChars pat cs

/-- `header.replace('Bearer ', '')`. -/
def stripBearer (s : String) : String :=
  String.mk (removeFirstChars "Bearer ".data s.data)

/-- `validateRequest` of `src/middleware/auth.ts`: everything — the token
comparison, the 403 rejection and the `next()` call — sits inside
`if (process.env.NODE_ENV === 'development')`; outside development the
middleware returns having done neither. -/
def validateRequest (env : String) (authHeader : Option String)
    (expectedToken : String) : AuthOutcome :=
  let header := authHeader.getD ""
  let token := stripBearer header
  if env = "development" then
    if token = "" ∨ token ≠ expectedToken then .forbidden else .next
  else .hang

/-! ## Statement-side accessors and predicates -/

/-- The choices array of a canonical completion value. -/
def choicesOf (j : Json) : List Json := (j.prop "choices").asArr

/-- `choices[0]`. -/
def choice0 (j : Json) : Json := (choicesOf j).headD .jsUndefined

/-- `choices[0].finish_reason`. -/
def finishReasonOf (j : Json) : Json := (choice0 j).prop "finish_reason"

/-- `choices[0].message`. -/
def messageOf (j : Json) : Json := (choice0 j).prop "message"

/-- `choices[0].message.content`. -/
def contentOf (j : Json) : Json := (messageOf j).prop "content"

/-- `choices[0].message.function_call`. -/
def functionCallOf (j : Json) : Json := (messageOf j).prop "function_call"

/-- A well-formed completion: exactly one choice, at index 0, whose
message has the assistant role. -/
def wellFormedCompletion (j : Json) : Prop :=
  (choicesOf j).length = 1 ∧ (choice0 j).prop "index" = Json.num 0 0 ∧
    (messageOf j).prop "role" = Json.str "assistant"

/-- Overwrite the top-level `created` field of an object. -/
def setCreated (j : Json) (v : Json) : Json :=
  match j with
  | .obj fields => .obj (fields.map (fun p => if p.1 = "created" then (p.1, v) else p))
  | j => j

/-- A Variant A streamed part the loop can process without throwing:
a first choice exists, and when its `finish_reason` is `function_call`
the `message` the accumulation step reads is present. -/
def safePartA (p : PartA) : Bool :=
  match p.choices with
  | [] => false
  | c0 :: _ =>
    match c0.finish_reason with
    | some s => if s = "function_call" then c0.message.isSome else true
    | none => true

/-- A part the Variant A loop passes through: a first choice with a
`null` `finish_reason` (forwarded as a frame, no accumulation, loop
continues). -/
def quietPartA (p : PartA) : Bool :=
  match p.choices with
  | [] => false
  | c0 :: _ => c0.finish_reason = none

/-- The last frame of a stream is the `[DONE]` sentinel. -/
def endsWithDone (frames : List String) : Prop :=
  frames.getLast? = some doneFrame

/-! ## Concrete fixtures used by witnesses and counterexamples -/

/-- A one-message conversation. -/
def msgHi : ChatMessage := ⟨"user", some "hi", none⟩

/-- A concrete request context `(userId, channel, appId)`. -/
def ctxW : RequestContext := ⟨"111", "ccc", "app"⟩

/-- A registry holding exactly the tool `sendPhoto`. -/
def fmSendPhoto : String → Option ToolFn :=
  fun nm => if nm = "sendPhoto" then some (fun _ _ _ _ => "ok") else none

/-- The empty tool registry. -/
def fmEmpty : String → Option ToolFn := fun _ => none

/-- Valid JSON arguments. -/
def argsGood : String := "\x7b\"url\":\"x\"\x7d"

/-- A Variant A terminal response requesting `sendPhoto` with valid
arguments. -/
def respFCw : ResponseA := ⟨[⟨some "function_call", some ⟨some ⟨"sendPhoto", argsGood⟩⟩⟩]⟩

/-- A Variant A terminal response requesting `sendPhoto` with
unparseable arguments. -/
def respFCbadArgs : ResponseA := ⟨[⟨some "function_call", some ⟨some ⟨"sendPhoto", "not json"⟩⟩⟩]⟩

/-- A Variant A terminal response requesting the unregistered tool
`foo`. -/
def respAUnknown : ResponseA := ⟨[⟨some "function_call", some ⟨some ⟨"foo", "\x7b\x7d"⟩⟩⟩]⟩

/-- A Variant B terminal response with both a top-level string
`output_text` and a function-call item naming the unregistered `foo`. -/
def respBUnknown : Json :=
  Json.obj [("output_text", Json.str "hello"),
            ("output", Json.arr [Json.obj [("type", Json.str "function_call"),
              ("name", Json.str "foo"), ("arguments", Json.str "\x7b\x7d")]])]

/-- A streamed part carrying the whole `sendPhoto` call with valid
arguments and the `function_call` finish reason. -/
def partFCw : PartA := ⟨[⟨some "function_call", some ⟨some [⟨"sendPhoto", argsGood⟩]⟩⟩]⟩

/-- The same part with unparseable arguments. -/
def partFCbadArgs : PartA := ⟨[⟨some "function_call", some ⟨some [⟨"sendPhoto", "not json"⟩]⟩⟩]⟩

/-- The same part with the parseable but falsy argument payload `0`. -/
def partFCfalsy : PartA := ⟨[⟨some "function_call", some ⟨some [⟨"sendPhoto", "0"⟩]⟩⟩]⟩

/-- A streamed part with a `null` finish reason. -/
def partNullFinish : PartA := ⟨[⟨none, none⟩]⟩

/-- A streamed part with the `stop` finish reason. -/
def partStopFinish : PartA := ⟨[⟨some "stop", none⟩]⟩

/-- A bare `response.completed` Variant B event. -/
def evCompleted : EventB := { type := "response.completed", response_id := some "r1" }

/-! # Theorems -/

/-! ## C9: the bearer-token check runs only in development mode -/

/-- C9: for every request handled by `validateRequest` when `NODE_ENV` is
not `development`, the middleware returns without calling `next()` and
without sending any response: outside development a request is neither
authorized nor rejected. -/
theorem validateRequest_nondev_hangs (env : String) (authHeader : Option String)
    (expectedToken : String) (h : env ≠ "development") :
    validateRequest env authHeader expectedToken = .hang := by
  unfold validateRequest
  simp [h]

/-- Witness for C9 at `NODE_ENV = 'production'` with a correct bearer
token: the middleware still does nothing. -/
theorem validateRequest_nondev_hangs_witness :
    validateRequest "production" (some "Bearer tok") "tok" = .hang :=
  validateRequest_nondev_hangs "production" (some "Bearer tok") "tok" (by decide)

/-! ## C7: `messages` and `appId` required -/

/-- C7 counterexample: a request body carrying `messages` but lacking
`appId` is not rejected; the route proceeds into `processChatCompletion`
with the default `appId`, so the claim "a request body lacking either
field is rejected as a caller error before any backend call" is false. -/
theorem route_omitted_appId_not_rejected :
    routeCompletion (Json.obj [("messages",
        Json.arr [Json.obj [("role", Json.str "user"), ("content", Json.str "Hello!")]])]) =
      .proceed (Json.arr [Json.obj [("role", Json.str "user"), ("content", Json.str "Hello!")]])
        (Json.str "gpt-4o-mini") (Json.bool false) (Json.str "ccc") (Json.str "111")
        (Json.str "20b7c51ff4c644ab80cf5a4e646b0537") := rfl

/-- C7 as amended: only `messages` is required — a body without a truthy
`messages` is rejected with the 400 error before any processing, while a
body that omits `appId` entirely is given the default
`20b7c51ff4c644ab80cf5a4e646b0537` and proceeds. -/
theorem route_messages_required_appId_defaulted (body : Json)
    (hb : body ≠ Json.null) (hb' : body ≠ Json.jsUndefined) :
    (¬ (body.prop "messages").truthy →
      routeCompletion body = .badRequest "Missing \"messages\" in request body")
    ∧ ((body.prop "messages").truthy → body.prop "appId" = Json.jsUndefined →
        routeCompletion body = .proceed (body.prop "messages")
          (defaultIfUndef (body.prop "model") (Json.str "gpt-4o-mini"))
          (defaultIfUndef (body.prop "stream") (Json.bool false))
          (defaultIfUndef (body.prop "channel") (Json.str "ccc"))
          (defaultIfUndef (body.prop "userId") (Json.str "111"))
          (Json.str "20b7c51ff4c644ab80cf5a4e646b0537")) := by
  cases body <;> simp_all [routeCompletion, defaultIfUndef, Json.truthy]

/-- Witness for C7's amended theorem: an empty body is rejected for
`messages`; a body with only `messages` proceeds with the defaults. -/
theorem route_messages_required_appId_defaulted_witness :
    routeCompletion (Json.obj []) = .badRequest "Missing \"messages\" in request body" ∧
    routeCompletion (Json.obj [("messages", Json.str "m")]) =
      .proceed (Json.str "m") (Json.str "gpt-4o-mini") (Json.bool false) (Json.str "ccc")
        (Json.str "111") (Json.str "20b7c51ff4c644ab80cf5a4e646b0537") :=
  ⟨(route_messages_required_appId_defaulted (Json.obj []) (by decide) (by decide)).1
     (by decide),
   (route_messages_required_appId_defaulted (Json.obj [("messages", Json.str "m")])
     (by decide) (by decide)).2 (by decide) (by decide)⟩

/-! ## C10: route defaults for `channel`, `userId`, `appId` -/

/-- C10 counterexample: the missing-`appId` 400 branch is not
unreachable — a body whose `appId` is present but `null` (the
destructuring default fires only on an absent property) is rejected
with the missing-`appId` error. -/
theorem route_null_appId_rejected :
    routeCompletion (Json.obj [("messages", Json.arr [Json.obj [("role", Json.str "user")]]),
        ("appId", Json.null)]) =
      .badRequest "Missing \"appId\" in request body" := rfl

/-- C10 as amended: a body that omits `channel`, `userId` and `appId`
has the fixed defaults `ccc`, `111` and
`20b7c51ff4c644ab80cf5a4e646b0537` substituted before
`processChatCompletion` is called, so the defaults are what reach tool
execution; the missing-`appId` 400 branch is unreachable for an omitted
`appId`, though still reachable for a present-but-falsy one. -/
theorem route_defaults_reach_processing (body : Json)
    (hb : body ≠ Json.null) (hb' : body ≠ Json.jsUndefined)
    (hm : (body.prop "messages").truthy)
    (hc : body.prop "channel" = Json.jsUndefined) (hu : body.prop "userId" = Json.jsUndefined)
    (ha : body.prop "appId" = Json.jsUndefined) :
    routeCompletion body = .proceed (body.prop "messages")
      (defaultIfUndef (body.prop "model") (Json.str "gpt-4o-mini"))
      (defaultIfUndef (body.prop "stream") (Json.bool false))
      (Json.str "ccc") (Json.str "111") (Json.str "20b7c51ff4c644ab80cf5a4e646b0537") := by
  cases body <;> simp_all [routeCompletion, defaultIfUndef, Json.truthy]

/-- Witness for C10's amended theorem at a concrete body that omits all
three fields. -/
theorem route_defaults_reach_processing_witness :
    routeCompletion (Json.obj [("messages", Json.str "m"), ("stream", Json.bool true)]) =
      .proceed (Json.str "m") (Json.str "gpt-4o-mini") (Json.bool true) (Json.str "ccc")
        (Json.str "111") (Json.str "20b7c51ff4c644ab80cf5a4e646b0537") :=
  route_defaults_reach_processing (Json.obj [("messages", Json.str "m"), ("stream", Json.bool true)])
    (by decide) (by decide) (by decide) (by decide) (by decide) (by decide)

/-! ## Formatter lemmas shared by C2, C3, C8 -/

/-- Overwriting `created` on a completion literal replaces exactly that
field. -/
theorem setCreated_shell (i : Json) (t t' : Nat) (m g : Json) (f : String) :
    setCreated (completionShell i t m g f) (Json.num t' 0) = completionShell i t' m g f := rfl

/-- Overwriting `created` twice keeps the last value. -/
theorem setCreated_setCreated (j v w : Json) :
    setCreated (setCreated j v) w = setCreated j w := by
  cases j <;> simp only [setCreated]
  simp only [List.map_map]
  congr 1
  apply List.map_congr_left
  intro p _
  by_cases h : p.1 = "created" <;> simp [h]

/-- The text path depends on the clock only through `created`. -/
theorem formatTextPath_time (t : Nat) (i m o : Json) (items : List Json) :
    formatTextPath t i m o items =
      (formatTextPath 0 i m o items).map (fun j => setCreated j (Json.num t 0)) := by
  unfold formatTextPath
  cases h : extractTextContent items <;> simp [Except.map, setCreated_shell]

/-- The whole `try` body depends on the clock only through `created`. -/
theorem formatBody_time (t : Nat) (r : Json) :
    formatBody t r = (formatBody 0 r).map (fun j => setCreated j (Json.num t 0)) := by
  cases r <;> simp only [formatBody, Except.map] <;> try rfl
  case obj fs =>
    split
    · rfl
    · split
      · rfl
      · split
        · split
          · cases h : fcSelectName _ <;> simp [Except.map, setCreated_shell]
          · exact formatTextPath_time t _ _ _ _
        · exact formatTextPath_time t _ _ _ _

/-- A completion literal with an assistant text message is well formed. -/
theorem wf_shell_assistant (i : Json) (t : Nat) (m c : Json) (f : String) :
    wellFormedCompletion (completionShell i t m (assistantMsg c) f) := ⟨rfl, rfl, rfl⟩

/-- A completion literal with a function-call message is well formed. -/
theorem wf_shell_fc (i : Json) (t : Nat) (m nm ar : Json) (f : String) :
    wellFormedCompletion (completionShell i t m (fcMsg nm ar) f) := ⟨rfl, rfl, rfl⟩

/-- Every value the text path returns is well formed. -/
theorem formatTextPath_ok_wf {t : Nat} {i m o : Json} {items : List Json} {j : Json}
    (h : formatTextPath t i m o items = .ok j) : wellFormedCompletion j := by
  unfold formatTextPath at h
  cases he : extractTextContent items <;> rw [he] at h
  · exact absurd h (by simp)
  · simp only [Except.ok.injEq] at h
    subst h
    exact wf_shell_assistant ..

/-- Every value the `try` body returns is well formed. -/
theorem formatBody_ok_wf {t : Nat} {r : Json} {j : Json} (h : formatBody t r = .ok j) :
    wellFormedCompletion j := by
  cases r
  case jsUndefined => exact absurd h (by simp [formatBody])
  case null => exact absurd h (by simp [formatBody])
  case bool b =>
    rw [show formatBody t (Json.bool b) = .ok (completionShell (Json.str "response_id") t
        (Json.str "unknown_model") (assistantMsg (Json.str "")) "stop") from rfl] at h
    simp only [Except.ok.injEq] at h
    subst h; exact wf_shell_assistant ..
  case num m e =>
    rw [show formatBody t (Json.num m e) = .ok (completionShell (Json.str "response_id") t
        (Json.str "unknown_model") (assistantMsg (Json.str "")) "stop") from rfl] at h
    simp only [Except.ok.injEq] at h
    subst h; exact wf_shell_assistant ..
  case str s =>
    rw [show formatBody t (Json.str s) = .ok (completionShell (Json.str "response_id") t
        (Json.str "unknown_model") (assistantMsg (Json.str "")) "stop") from rfl] at h
    simp only [Except.ok.injEq] at h
    subst h; exact wf_shell_assistant ..
  case arr xs =>
    rw [show formatBody t (Json.arr xs) = .ok (completionShell (Json.str "response_id") t
        (Json.str "unknown_model") (assistantMsg (Json.str "")) "stop") from rfl] at h
    simp only [Except.ok.injEq] at h
    subst h; exact wf_shell_assistant ..
  case obj fs =>
    simp only [formatBody] at h
    split at h
    · simp only [Except.ok.injEq] at h
      subst h; exact wf_shell_assistant ..
    · split at h
      · simp only [Except.ok.injEq] at h
        subst h; exact wf_shell_assistant ..
      · split at h
        · split at h
          · split at h
            · exact absurd h (by simp)
            · simp only [Except.ok.injEq] at h
              subst h; exact wf_shell_fc ..
          · exact formatTextPath_ok_wf h
        · exact formatTextPath_ok_wf h

/-! ## C3: the formatter is not byte-identical across two applications -/

/-- C3 counterexample: `formatResponseAsCompletion` stamps
`created: Math.floor(Date.now() / 1000)`, so two applications at clock
readings 0 and 1 on the same response yield different outputs — the
"byte-identical, no hidden state" claim fails (the clock is hidden
state). -/
theorem formatter_not_time_invariant :
    formatResponseAsCompletion 0 (Json.obj []) ≠ formatResponseAsCompletion 1 (Json.obj []) := by
  decide

/-- C3 as amended: the formatter is pure up to the `created` timestamp —
two applications to the same response at any two clock readings agree
exactly after the `created` field is overwritten; in particular two
applications at the same reading are byte-identical. -/
theorem formatter_created_only_time_dependence (t₁ t₂ : Nat) (r : Json) :
    setCreated (formatResponseAsCompletion t₁ r) (Json.num 0 0) =
      setCreated (formatResponseAsCompletion t₂ r) (Json.num 0 0) := by
  unfold formatResponseAsCompletion
  rw [formatBody_time t₁ r, formatBody_time t₂ r]
  cases formatBody 0 r
  · rfl
  · simp [Except.map, setCreated_setCreated]

/-! ## C8: the formatter never throws and is always well formed -/

/-- C8: for every input value — `null`, non-objects and malformed
responses included — `formatResponseAsCompletion` returns a completion
with exactly one choice at index 0 and an assistant-role message, and
whenever the `try` body throws the result is the explanatory placeholder
completion instead of a propagated error. -/
theorem formatResponseAsCompletion_total (now : Nat) (r : Json) :
    wellFormedCompletion (formatResponseAsCompletion now r) ∧
      (formatBody now r = .error () →
        formatResponseAsCompletion now r = fallbackCompletion now) := by
  constructor
  · unfold formatResponseAsCompletion
    cases h : formatBody now r
    · exact wf_shell_assistant ..
    · exact formatBody_ok_wf h
  · intro h
    unfold formatResponseAsCompletion
    rw [h]

/-- Witness for C8: a `null` response is well formed, and a response
whose `message` item carries a `null` content fragment (which makes the
body throw at `c.type`) yields the placeholder completion. -/
theorem formatResponseAsCompletion_total_witness :
    wellFormedCompletion (formatResponseAsCompletion 0 Json.null) ∧
      formatResponseAsCompletion 0
        (Json.obj [("output", Json.arr [Json.obj [("type", Json.str "message"),
          ("content", Json.arr [Json.null])]])]) = fallbackCompletion 0 :=
  ⟨(formatResponseAsCompletion_total 0 Json.null).1,
   (formatResponseAsCompletion_total 0
      (Json.obj [("output", Json.arr [Json.obj [("type", Json.str "message"),
        ("content", Json.arr [Json.null])]])])).2 (by decide)⟩

/-! ## C2: function-call precedence in the formatter -/

/-- C2 counterexample: a terminal response whose `output` contains a
function-call item but which also carries a top-level string
`output_text` is formatted by the earlier `output_text` branch — the
result has `finish_reason` `stop` and content `hi`, not
`function_call` with `null` content, so the function-call item does
not take precedence over the direct `output_text` source. -/
theorem formatter_output_text_shadows_fn_call :
    formatResponseAsCompletion 0 (Json.obj [("output_text", Json.str "hi"),
        ("output", Json.arr [Json.obj [("type", Json.str "function_call"),
          ("name", Json.str "f"), ("arguments", Json.str "\x7b\x7d")]])]) =
      completionShell (Json.str "response_id") 0 (Json.str "unknown_model")
        (assistantMsg (Json.str "hi")) "stop" ∧
    finishReasonOf (formatResponseAsCompletion 0 (Json.obj [("output_text", Json.str "hi"),
        ("output", Json.arr [Json.obj [("type", Json.str "function_call"),
          ("name", Json.str "f"), ("arguments", Json.str "\x7b\x7d")]])])) ≠
      Json.str "function_call" := by
  constructor
  · rfl
  · decide

/-- C2 as amended: for every terminal response whose top-level
`output_text` is not a string, whose `output` is an array, and whose
first function-call item (type `function_call` or `function_tool_call`)
has a nonempty string name and nonempty string arguments, the formatter
returns `finish_reason` `function_call` with content `null` and that
item's name and arguments — taking precedence over assistant message
content, content-fragment arrays and the non-string `output_text`
fallback. -/
theorem formatter_fn_call_after_output_text (now : Nat) (r fc : Json) (n a : String)
    (hr : r ≠ Json.null) (hr' : r ≠ Json.jsUndefined)
    (hot : (r.prop "output_text").isStr = false)
    (harr : (r.prop "output").isArr = true)
    (hfind : ((r.prop "output").asArr).find? isFnCallItem = some fc)
    (hn : fc.prop "name" = Json.str n) (hnne : n ≠ "")
    (ha : fc.prop "arguments" = Json.str a) (hane : a ≠ "") :
    formatResponseAsCompletion now r =
      completionShell (if (r.prop "id").isStr then r.prop "id" else Json.str "response_id")
        now
        (if (r.prop "model").isStr then r.prop "model" else Json.str "unknown_model")
        (fcMsg (Json.str n) (Json.str a)) "function_call" := by
  cases r
  case null => exact absurd rfl hr
  case jsUndefined => exact absurd rfl hr'
  case bool b => simp [Json.prop, Json.isArr] at harr
  case num m e => simp [Json.prop, Json.isArr] at harr
  case str s => simp [Json.prop, Json.isArr] at harr
  case arr xs => simp [Json.prop, Json.isArr] at harr
  case obj fs =>
    unfold formatResponseAsCompletion formatBody
    simp only [Json.isStr] at hot
    simp [hot, harr, hfind, hn, ha, hnne, hane, fcSelectName, Json.truthy, Json.isStr]

/-- Witness for C2's amended theorem at a concrete response holding only
a function-call item. -/
theorem formatter_fn_call_after_output_text_witness :
    formatResponseAsCompletion 0
      (Json.obj [("output", Json.arr [Json.obj [("type", Json.str "function_call"),
        ("name", Json.str "f"), ("arguments", Json.str "\x7b\x7d")]])]) =
    completionShell (Json.str "response_id") 0 (Json.str "unknown_model")
      (fcMsg (Json.str "f") (Json.str "\x7b\x7d")) "function_call" := by
  have h := formatter_fn_call_after_output_text 0
    (Json.obj [("output", Json.arr [Json.obj [("type", Json.str "function_call"),
      ("name", Json.str "f"), ("arguments", Json.str "\x7b\x7d")]])])
    (Json.obj [("type", Json.str "function_call"), ("name", Json.str "f"),
      ("arguments", Json.str "\x7b\x7d")])
    "f" "\x7b\x7d" (by decide) (by decide) (by decide) (by decide) (by decide)
    (by decide) (by decide) (by decide) (by decide)
  simpa using h

/-! ## Streaming helper lemmas -/

/-- Appending onto a DONE-terminated frame list keeps its last frame. -/
theorem endsWithDone_append {fs : List String} (xs : List String) (h : endsWithDone fs) :
    endsWithDone (xs ++ fs) := by
  unfold endsWithDone at *
  rw [List.getLast?_append_of_ne_nil]
  · exact h
  · intro hnil
    rw [hnil] at h
    simp at h

/-- A cons preserves DONE termination. -/
theorem endsWithDone_cons (f : String) {fs : List String} (h : endsWithDone fs) :
    endsWithDone (f :: fs) := endsWithDone_append [f] h

/-- The singleton DONE frame list. -/
theorem endsWithDone_single : endsWithDone [doneFrame] := rfl

/-- A list closed with the DONE frame ends with it. -/
theorem endsWithDone_concat (xs : List String) : endsWithDone (xs ++ [doneFrame]) :=
  endsWithDone_append xs endsWithDone_single

/-- Every Variant B stream run ends with the DONE frame, whatever the
event sequence and accumulator state: `response.completed` closes with
DONE after the tool hand-off, and a stream without it falls through to
the post-loop DONE. -/
theorem runLoopB_ends_done (create : String → Bool → List EventB)
    (fm : String → Option ToolFn) (mc model : String) (now : Nat) (ctx : RequestContext) :
    ∀ (events : List EventB) (name? : Option String) (args : String) (inProgress : Bool),
      endsWithDone (runLoopB create fm mc model now ctx name? args inProgress events).frames := by
  intro events
  induction events with
  | nil => intro _ _ _; exact endsWithDone_single
  | cons part rest ih =>
    intro name? args inProgress
    by_cases h1 : part.type = "response.output_text.delta"
    · simp [runLoopB, h1]
      exact endsWithDone_cons _ (ih _ _ _)
    · by_cases h2 : part.type = "response.function_call_arguments.delta"
      · simp [runLoopB, h1, h2]
        exact endsWithDone_cons _ (ih _ _ _)
      · by_cases h3 : part.type = "response.function_call_arguments.done"
        · simp [runLoopB, h1, h2, h3]
          exact endsWithDone_cons _ (ih _ _ _)
        · by_cases h4 : part.type = "response.output_item.added"
          · simp only [runLoopB, h1, h2, h3, h4]
            simp
            cases part.item with
            | some it =>
              by_cases h5 : it.type = "function_call"
              · simp [h5]
                exact endsWithDone_cons _ (ih _ _ _)
              · simp [h5]
                exact ih _ _ _
            | none => simp; exact ih _ _ _
          · by_cases h5 : part.type = "response.output_text.done"
            · simp [runLoopB, h1, h2, h3, h4, h5]
              exact ih _ _ _
            · by_cases h6 : part.type = "response.refusal.delta"
              · simp [runLoopB, h1, h2, h3, h4, h5, h6]
                exact endsWithDone_cons _ (ih _ _ _)
              · by_cases h7 : part.type = "response.completed"
                · simp only [runLoopB, h1, h2, h3, h4, h5, h6, h7]
                  simp
                  by_cases h8 : inProgress ∧ optStrTruthy name? = true
                  · simp [h8]
                    cases fm (name?.getD "") with
                    | some fn =>
                      cases parseJson args with
                      | none => simp; exact endsWithDone_cons _ endsWithDone_single
                      | some v => simp; exact endsWithDone_concat _
                    | none => simp; exact endsWithDone_single
                  · simp [h8]
                    exact endsWithDone_cons _ endsWithDone_single
                · simp [runLoopB, h1, h2, h3, h4, h5, h6, h7]
                  exact ih _ _ _

/-- Every outcome of Variant A's terminal step ends with the DONE
frame. -/
theorem finishStepA_ends_done (create : List ChatMessage → Bool → List PartA)
    (fm : String → Option ToolFn) (msgs : List ChatMessage) (ctx : RequestContext)
    (name? : Option String) (args : String) (pf : String) :
    endsWithDone (finishStepA create fm msgs ctx name? args pf).frames := by
  unfold finishStepA
  by_cases h : optStrTruthy name? ∧ args ≠ ""
  · simp only [if_pos h]
    cases fm (name?.getD "") with
    | some fn =>
      cases parseJson args with
      | none => exact endsWithDone_cons _ endsWithDone_single
      | some v =>
        by_cases ht : v.truthy = true
        · simp [ht]
          exact endsWithDone_cons _ (endsWithDone_concat _)
        · simp [ht]
          exact endsWithDone_cons _ endsWithDone_single
    | none => exact endsWithDone_cons _ endsWithDone_single
  · simp only [if_neg h]
    exact endsWithDone_cons _ endsWithDone_single

/-- A Variant A stream run over safe parts that contain a truthy
`finish_reason` ends with the DONE frame. -/
theorem runLoopA_safe_ends_done (create : List ChatMessage → Bool → List PartA)
    (fm : String → Option ToolFn) (msgs : List ChatMessage) (ctx : RequestContext) :
    ∀ (parts : List PartA), (∀ q ∈ parts, safePartA q = true) →
      (∃ q ∈ parts, optStrTruthy (q.choices.head?.bind (·.finish_reason)) = true) →
      ∀ (name? : Option String) (args : String),
        endsWithDone (runLoopA create fm msgs ctx name? args parts).frames := by
  intro parts
  induction parts with
  | nil => intro _ hex; simp at hex
  | cons p rest ih =>
    intro hsafe hex name? args
    have hp := hsafe p (List.mem_cons_self ..)
    obtain ⟨c0, cs, hch⟩ : ∃ c0 cs, p.choices = c0 :: cs := by
      unfold safePartA at hp
      cases hc : p.choices with
      | nil => rw [hc] at hp; simp at hp
      | cons c0 cs => exact ⟨c0, cs, rfl⟩
    by_cases hfin : optStrTruthy c0.finish_reason = true
    · by_cases hdelta : c0.finish_reason = some "function_call"
      · have hmsg : c0.message.isSome := by
          unfold safePartA at hp
          rw [hch] at hp
          simpa [hdelta] using hp
        obtain ⟨m, hm⟩ := Option.isSome_iff_exists.mp hmsg
        cases htc : m.tool_calls with
        | none =>
          simp [runLoopA, hch, hdelta, hm, htc, hfin]
          exact finishStepA_ends_done ..
        | some tcs =>
          simp [runLoopA, hch, hdelta, hm, htc, hfin]
          exact finishStepA_ends_done ..
      · simp [runLoopA, hch, hdelta, hfin]
        exact finishStepA_ends_done ..
    · have hdelta : ¬ (c0.finish_reason = some "function_call") := by
        intro hc
        rw [hc] at hfin
        simp [optStrTruthy] at hfin
      have hex' : ∃ q ∈ rest, optStrTruthy (q.choices.head?.bind (·.finish_reason)) = true := by
        rcases hex with ⟨q, hq, hqt⟩
        rcases List.mem_cons.mp hq with rfl | hq'
        · rw [hch] at hqt
          simp at hqt
          exact absurd hqt hfin
        · exact ⟨q, hq', hqt⟩
      simp only [runLoopA, hch]
      simp [hdelta, hfin]
      exact endsWithDone_cons _ (ih (fun q hq => hsafe q (List.mem_cons_of_mem _ hq)) hex' _ _)

/-- Parts whose first choice has a `null` finish reason are forwarded as
frames with the loop state unchanged. -/
theorem runLoopA_quiet_passthrough (create : List ChatMessage → Bool → List PartA)
    (fm : String → Option ToolFn) (msgs : List ChatMessage) (ctx : RequestContext)
    (pre : List PartA) (h : ∀ q ∈ pre, quietPartA q = true) (rest : List PartA)
    (name? : Option String) (args : String) :
    runLoopA create fm msgs ctx name? args (pre ++ rest) =
      ⟨pre.map frameOfPartA ++ (runLoopA create fm msgs ctx name? args rest).frames,
       (runLoopA create fm msgs ctx name? args rest).errored,
       (runLoopA create fm msgs ctx name? args rest).toolCalls,
       (runLoopA create fm msgs ctx name? args rest).backendCalls⟩ := by
  induction pre with
  | nil => simp
  | cons p ps ih =>
    have hp := h p (List.mem_cons_self ..)
    obtain ⟨c0, cs, hch, hfin⟩ : ∃ c0 cs, p.choices = c0 :: cs ∧ c0.finish_reason = none := by
      unfold quietPartA at hp
      cases hc : p.choices with
      | nil => rw [hc] at hp; simp at hp
      | cons c0 cs =>
        rw [hc] at hp
        simp at hp
        exact ⟨c0, cs, rfl, hp⟩
    simp only [List.cons_append, runLoopA, hch]
    simp [hfin, optStrTruthy, ih (fun q hq => h q (List.mem_cons_of_mem _ hq))]

/-! ## C1: single-hop tool execution (Variant A, both paths) -/

/-- C1 counterexample: on the streaming path a registered tool
(`sendPhoto`) whose argument payload `0` parses successfully but to a
falsy value is skipped by the source's `if (parsedArgs)` truthiness
guard — no tool is executed and no follow-up request is issued, the
stream ending with the chunk frame and `[DONE]` — so "executes the tool
exactly once and re-submits exactly once" fails for this
parseable-arguments request. -/
theorem streaming_falsy_args_skips_execution :
    processStreamingRequest_A (fun _ _ => [partFCfalsy]) fmSendPhoto [msgHi] ctxW =
      ⟨[frameOfPartA partFCfalsy, doneFrame], false, [], [([msgHi], true)]⟩ ∧
    parseJson "0" = some (Json.num 0 0) ∧ (fmSendPhoto "sendPhoto").isSome = true :=
  ⟨rfl, rfl, rfl⟩

/-- C1 as amended: when the backend's first response signals a
registered tool call with parseable arguments — and, on the streaming
path, arguments whose parsed value is truthy, since the source's
`if (parsedArgs)` guard skips falsy values — the orchestrator executes
the tool exactly once (one entry in the tool trace), re-submits exactly
once via the same oracle with the original streaming flag
(`false`/`false` non-streaming, `true`/`true` streaming), and returns
or forwards the follow-up result as final with no second detection
pass — the trace stays a singleton even when the follow-up response
itself requests a function call, since both conclusions hold for every
value of the follow-up oracle. -/
theorem single_hop_tool_execution
    (create : List ChatMessage → Bool → ResponseA)
    (screate : List ChatMessage → Bool → List PartA)
    (fm : String → Option ToolFn) (msgs : List ChatMessage) (ctx : RequestContext)
    (respA : ResponseA) (c0 : ChoiceA) (cs : List ChoiceA) (fc : FunctionCallA)
    (fn : ToolFn) (v : Json)
    (pre : List PartA) (p : PartA) (sc0 : StreamChoiceA) (scs : List StreamChoiceA)
    (smsg : StreamMessageA) (tcs : List StreamToolCallA) (n a : String)
    (sfn : ToolFn) (sv : Json) :
    (create msgs false = respA → respA.choices = c0 :: cs →
     c0.finish_reason = some "function_call" →
     c0.message.bind (·.function_call) = some fc →
     fc.name ≠ "" → fc.arguments ≠ "" → fm fc.name = some fn →
     parseJson fc.arguments = some v →
     processNonStreamingRequest_A create fm msgs ctx =
       ⟨.ok (create (msgs ++ [functionRoleMsg fc.name
               (fn ctx.appId ctx.userId ctx.channel v)]) false),
        [⟨fc.name, ctx.appId, ctx.userId, ctx.channel, v,
          fn ctx.appId ctx.userId ctx.channel v⟩],
        [(msgs, false),
         (msgs ++ [functionRoleMsg fc.name (fn ctx.appId ctx.userId ctx.channel v)],
          false)]⟩)
    ∧
    (screate msgs true = pre ++ [p] → (∀ q ∈ pre, quietPartA q = true) →
     p.choices = sc0 :: scs → sc0.finish_reason = some "function_call" →
     sc0.message = some smsg → smsg.tool_calls = some tcs →
     accumToolCalls (none, "") tcs = (some n, a) → n ≠ "" → a ≠ "" →
     fm n = some sfn → parseJson a = some sv → sv.truthy = true →
     processStreamingRequest_A screate fm msgs ctx =
       ⟨pre.map frameOfPartA ++ (frameOfPartA p ::
          ((screate (msgs ++ [functionRoleMsg n
              (sfn ctx.appId ctx.userId ctx.channel sv)]) true).map frameOfPartA
           ++ [doneFrame])),
        false,
        [⟨n, ctx.appId, ctx.userId, ctx.channel, sv,
          sfn ctx.appId ctx.userId ctx.channel sv⟩],
        [(msgs, true),
         (msgs ++ [functionRoleMsg n (sfn ctx.appId ctx.userId ctx.channel sv)],
          true)]⟩) := by
  constructor
  · intro hresp hch hfin hfc hn ha hfm hparse
    simp only [processNonStreamingRequest_A]
    rw [hresp]
    simp only [hch]
    simp [hfin, hfc, hn, ha, hfm, hparse]
  · intro hs hquiet hch hfin hm htc hacc hn ha hfm hparse htruthy
    simp only [processStreamingRequest_A]
    rw [hs]
    rw [runLoopA_quiet_passthrough screate fm msgs ctx pre hquiet [p] none ""]
    have hstep : runLoopA screate fm msgs ctx none "" [p] =
        finishStepA screate fm msgs ctx (some n) a (frameOfPartA p) := by
      simp [runLoopA, hch, hfin, hm, htc, hacc, optStrTruthy]
    rw [hstep]
    have hfs : finishStepA screate fm msgs ctx (some n) a (frameOfPartA p) =
        ⟨frameOfPartA p ::
           ((screate (msgs ++ [functionRoleMsg n
               (sfn ctx.appId ctx.userId ctx.channel sv)]) true).map frameOfPartA
            ++ [doneFrame]),
         false,
         [⟨n, ctx.appId, ctx.userId, ctx.channel, sv,
           sfn ctx.appId ctx.userId ctx.channel sv⟩],
         [(msgs ++ [functionRoleMsg n (sfn ctx.appId ctx.userId ctx.channel sv)],
           true)]⟩ := by
      simp [finishStepA, optStrTruthy, hn, ha, hfm, hparse, htruthy]
    rw [hfs]

/-- Witness for C1 at a concrete `sendPhoto` scenario on both paths;
the constant oracle makes the follow-up response itself a function-call
response, and the tool trace still holds exactly one execution. -/
theorem single_hop_tool_execution_witness :
    processNonStreamingRequest_A (fun _ _ => respFCw) fmSendPhoto [msgHi] ctxW =
      ⟨.ok respFCw,
       [⟨"sendPhoto", "app", "111", "ccc", Json.obj [("url", Json.str "x")], "ok"⟩],
       [([msgHi], false), ([msgHi, functionRoleMsg "sendPhoto" "ok"], false)]⟩ ∧
    processStreamingRequest_A (fun _ _ => [partFCw]) fmSendPhoto [msgHi] ctxW =
      ⟨frameOfPartA partFCw :: ([frameOfPartA partFCw] ++ [doneFrame]), false,
       [⟨"sendPhoto", "app", "111", "ccc", Json.obj [("url", Json.str "x")], "ok"⟩],
       [([msgHi], true), ([msgHi, functionRoleMsg "sendPhoto" "ok"], true)]⟩ := by
  have H := single_hop_tool_execution (fun _ _ => respFCw) (fun _ _ => [partFCw])
    fmSendPhoto [msgHi] ctxW
    respFCw ⟨some "function_call", some ⟨some ⟨"sendPhoto", argsGood⟩⟩⟩ []
    ⟨"sendPhoto", argsGood⟩ (fun _ _ _ _ => "ok") (Json.obj [("url", Json.str "x")])
    [] partFCw ⟨some "function_call", some ⟨some [⟨"sendPhoto", argsGood⟩]⟩⟩ []
    ⟨some [⟨"sendPhoto", argsGood⟩]⟩ [⟨"sendPhoto", argsGood⟩] "sendPhoto" argsGood
    (fun _ _ _ _ => "ok") (Json.obj [("url", Json.str "x")])
  constructor
  · simpa using H.1 rfl rfl rfl rfl (by decide) (by decide) rfl (by decide)
  · simpa using H.2 rfl (by simp) rfl rfl rfl rfl (by decide) (by decide) (by decide)
      rfl (by decide) (by decide)

/-! ## C4: invalid function-call arguments -/

/-- C4 counterexample: on the streaming path a registered tool
(`sendPhoto`) with an unparseable argument payload does NOT fail the
request — the parse failure is swallowed, no tool runs, no error is
signalled, and the stream ends normally with the `[DONE]` frame, so the
claimed "identical decision logic" between the paths is false. -/
theorem streaming_invalid_args_completes_normally :
    processStreamingRequest_A (fun _ _ => [partFCbadArgs]) fmSendPhoto [msgHi] ctxW =
      ⟨[frameOfPartA partFCbadArgs, doneFrame], false, [], [([msgHi], true)]⟩ ∧
    parseJson "not json" = none ∧ (fmSendPhoto "sendPhoto").isSome = true :=
  ⟨rfl, rfl, rfl⟩

/-- C4 as amended: the non-streaming path fails the request with
`Invalid function call arguments` when a registered tool's accumulated
argument payload does not parse, but the streaming path diverges from
it: the failure is logged and swallowed, the tool is not executed, no
follow-up call is issued, and the stream closes normally with the
`[DONE]` frame and no error. -/
theorem invalid_arguments_divergence
    (create : List ChatMessage → Bool → ResponseA)
    (screate : List ChatMessage → Bool → List PartA)
    (fm : String → Option ToolFn) (msgs : List ChatMessage) (ctx : RequestContext)
    (respA : ResponseA) (c0 : ChoiceA) (cs : List ChoiceA) (fc : FunctionCallA)
    (fn : ToolFn)
    (pre : List PartA) (p : PartA) (sc0 : StreamChoiceA) (scs : List StreamChoiceA)
    (smsg : StreamMessageA) (tcs : List StreamToolCallA) (n a : String) (sfn : ToolFn) :
    (create msgs false = respA → respA.choices = c0 :: cs →
     c0.finish_reason = some "function_call" →
     c0.message.bind (·.function_call) = some fc →
     fc.name ≠ "" → fc.arguments ≠ "" → fm fc.name = some fn →
     parseJson fc.arguments = none →
     processNonStreamingRequest_A create fm msgs ctx =
       ⟨.error "Invalid function call arguments", [], [(msgs, false)]⟩)
    ∧
    (screate msgs true = pre ++ [p] → (∀ q ∈ pre, quietPartA q = true) →
     p.choices = sc0 :: scs → sc0.finish_reason = some "function_call" →
     sc0.message = some smsg → smsg.tool_calls = some tcs →
     accumToolCalls (none, "") tcs = (some n, a) → n ≠ "" → a ≠ "" →
     fm n = some sfn → parseJson a = none →
     processStreamingRequest_A screate fm msgs ctx =
       ⟨pre.map frameOfPartA ++ [frameOfPartA p, doneFrame], false, [],
        [(msgs, true)]⟩) := by
  constructor
  · intro hresp hch hfin hfc hn ha hfm hparse
    simp only [processNonStreamingRequest_A]
    rw [hresp]
    simp only [hch]
    simp [hfin, hfc, hn, ha, hfm, hparse]
  · intro hs hquiet hch hfin hm htc hacc hn ha hfm hparse
    simp only [processStreamingRequest_A]
    rw [hs]
    rw [runLoopA_quiet_passthrough screate fm msgs ctx pre hquiet [p] none ""]
    have hstep : runLoopA screate fm msgs ctx none "" [p] =
        finishStepA screate fm msgs ctx (some n) a (frameOfPartA p) := by
      simp [runLoopA, hch, hfin, hm, htc, hacc, optStrTruthy]
    rw [hstep]
    have hfs : finishStepA screate fm msgs ctx (some n) a (frameOfPartA p) =
        ⟨[frameOfPartA p, doneFrame], false, [], []⟩ := by
      simp [finishStepA, optStrTruthy, hn, ha, hfm, hparse]
    rw [hfs]

/-- Witness for C4's amended theorem at the concrete `sendPhoto` /
`not json` scenario on both paths. -/
theorem invalid_arguments_divergence_witness :
    processNonStreamingRequest_A (fun _ _ => respFCbadArgs) fmSendPhoto [msgHi] ctxW =
      ⟨.error "Invalid function call arguments", [], [([msgHi], false)]⟩ ∧
    processStreamingRequest_A (fun _ _ => [partFCbadArgs]) fmSendPhoto [msgHi] ctxW =
      ⟨[frameOfPartA partFCbadArgs, doneFrame], false, [], [([msgHi], true)]⟩ := by
  have H := invalid_arguments_divergence (fun _ _ => respFCbadArgs)
    (fun _ _ => [partFCbadArgs]) fmSendPhoto [msgHi] ctxW
    respFCbadArgs ⟨some "function_call", some ⟨some ⟨"sendPhoto", "not json"⟩⟩⟩ []
    ⟨"sendPhoto", "not json"⟩ (fun _ _ _ _ => "ok")
    [] partFCbadArgs ⟨some "function_call", some ⟨some [⟨"sendPhoto", "not json"⟩]⟩⟩ []
    ⟨some [⟨"sendPhoto", "not json"⟩]⟩ [⟨"sendPhoto", "not json"⟩] "sendPhoto" "not json"
    (fun _ _ _ _ => "ok")
  constructor
  · exact H.1 rfl rfl rfl rfl (by decide) (by decide) rfl (by decide)
  · simpa using H.2 rfl (by simp) rfl rfl rfl rfl (by decide) (by decide) (by decide)
      rfl (by decide)

/-! ## C5: unregistered tool names are recoverable -/

/-- C5 counterexample: on Variant B an unregistered tool name (`foo`)
does pass without execution, but the response does not pass through
unchanged with `finish_reason` `function_call`: it is re-formatted, and
because this response carries a top-level string `output_text`, the
result has `finish_reason` `stop`. -/
theorem responses_unknown_tool_not_unchanged :
    (processNonStreamingRequest_B 0 (fun _ _ => respBUnknown) fmEmpty "m" [msgHi] ctxW).toolCalls
        = [] ∧
    (processNonStreamingRequest_B 0 (fun _ _ => respBUnknown) fmEmpty "m" [msgHi] ctxW).result =
      .ok (formatResponseAsCompletion 0 respBUnknown) ∧
    finishReasonOf (formatResponseAsCompletion 0 respBUnknown) = Json.str "stop" ∧
    formatResponseAsCompletion 0 respBUnknown ≠ respBUnknown :=
  ⟨rfl, rfl, rfl, by decide⟩

/-- C5 as amended: an unregistered tool name never executes a tool and,
provided (on Variant B) the function-call item's `arguments` is a
string, never fails the request; Variant A returns the original
response unchanged (whose `finish_reason` is `function_call` by
hypothesis), while Variant B returns the response re-formatted as a
completion (whose `finish_reason` is `function_call` only when the
response has no top-level string `output_text`).  A Variant B item with
non-string `arguments` instead fails the whole request: the details
log's `functionArgs.substring(0, 100)` throws before the registry
lookup. -/
theorem unknown_tool_passthrough
    (create : List ChatMessage → Bool → ResponseA) (createB : String → Bool → Json)
    (fmA fmB : String → Option ToolFn) (msgs msgsB : List ChatMessage)
    (ctx ctxB : RequestContext) (now : Nat) (model : String)
    (respA : ResponseA) (c0 : ChoiceA) (cs : List ChoiceA) (fc : FunctionCallA)
    (respB : Json) (itemsB : List Json) (fcB : Json) (amB : Option Json)
    (nB aB : String) :
    (create msgs false = respA → respA.choices = c0 :: cs →
     c0.finish_reason = some "function_call" →
     c0.message.bind (·.function_call) = some fc → fc.name ≠ "" → fc.arguments ≠ "" →
     fmA fc.name = none →
     processNonStreamingRequest_A create fmA msgs ctx =
       ⟨.ok respA, [], [(msgs, false)]⟩)
    ∧ (createB (flattenMessages msgsB) true = respB →
       respB.prop "output" = Json.arr itemsB → itemsB ≠ [] →
       logOutputEffects itemsB = .ok () →
       findAssistantB itemsB = .ok amB →
       findFnCallB itemsB = .ok (some fcB) →
       fcB.prop "name" = Json.str nB → nB ≠ "" →
       fcB.prop "arguments" = Json.str aB →
       fmB nB = none →
       processNonStreamingRequest_B now createB fmB model msgsB ctxB =
         ⟨.ok (formatResponseAsCompletion now respB), [],
          [(flattenMessages msgsB, true)]⟩) := by
  constructor
  · intro hresp hch hfin hfc hn ha hfm
    simp only [processNonStreamingRequest_A]
    rw [hresp]
    simp only [hch]
    simp [hfin, hfc, hn, ha, hfm]
  · intro hresp hout hne hlog hassist hfind hname hnB hargs hfm
    simp only [processNonStreamingRequest_B]
    rw [hresp]
    have hobj : ∃ fs, respB = Json.obj fs := by
      cases respB <;> simp [Json.prop] at hout ⊢
    obtain ⟨fs, rfl⟩ := hobj
    rw [show (Json.obj fs).getProp "output" = .ok ((Json.obj fs).prop "output") from rfl]
    rw [hout]
    have hlen : ¬ (¬ (Json.arr itemsB).truthy ∨ (Json.arr itemsB).lengthProp = Json.num 0 0) := by
      simp [Json.truthy, Json.lengthProp]
      intro hcon
      exact hne hcon
    simp only [Json.asArr, hlen, if_false]
    simp [hlog, hassist, hfind, hname, hnB, hargs, hfm, Json.truthy, jsToString,
      Json.isArr, Json.isStr]

/-- Witness for C5's amended theorem: `foo` unregistered on both
variants; Variant A passes the response through unchanged, Variant B
passes through the formatted response. -/
theorem unknown_tool_passthrough_witness :
    processNonStreamingRequest_A (fun _ _ => respAUnknown) fmSendPhoto [msgHi] ctxW =
      ⟨.ok respAUnknown, [], [([msgHi], false)]⟩ ∧
    processNonStreamingRequest_B 0 (fun _ _ => respBUnknown) fmEmpty "m" [msgHi] ctxW =
      ⟨.ok (formatResponseAsCompletion 0 respBUnknown), [],
       [(flattenMessages [msgHi], true)]⟩ := by
  have H := unknown_tool_passthrough (fun _ _ => respAUnknown) (fun _ _ => respBUnknown)
    fmSendPhoto fmEmpty [msgHi] [msgHi] ctxW ctxW 0 "m"
    respAUnknown ⟨some "function_call", some ⟨some ⟨"foo", "\x7b\x7d"⟩⟩⟩ []
    ⟨"foo", "\x7b\x7d"⟩ respBUnknown
    [Json.obj [("type", Json.str "function_call"), ("name", Json.str "foo"),
      ("arguments", Json.str "\x7b\x7d")]]
    (Json.obj [("type", Json.str "function_call"), ("name", Json.str "foo"),
      ("arguments", Json.str "\x7b\x7d")])
    none "foo" "\x7b\x7d"
  constructor
  · exact H.1 rfl rfl rfl rfl (by decide) (by decide) rfl
  · exact H.2 rfl rfl (by decide) rfl rfl rfl rfl (by decide) rfl rfl

/-! ## C6: end-of-stream `[DONE]` invariant -/

/-- C6 counterexample: a Variant A stream whose parts never carry a
truthy `finish_reason` ends without the `[DONE]` frame — the loop falls
off the iterator with the chunk frame as the last frame written, so the
"last frame is always `data: [DONE]`" claim fails on Variant A. -/
theorem streaming_a_no_finish_no_done :
    (processStreamingRequest_A (fun _ _ => [partNullFinish]) fmEmpty [msgHi] ctxW).frames =
      [frameOfPartA partNullFinish] ∧
    (processStreamingRequest_A (fun _ _ => [partNullFinish]) fmEmpty [msgHi]
        ctxW).frames.getLast? ≠ some doneFrame :=
  ⟨rfl, by decide⟩

/-- C6 as amended: on Variant B every streaming run's last frame is
`data: [DONE]\n\n`, however the event sequence ends and whether or not
a tool call occurred; on Variant A the invariant holds only when the
backend event sequence contains a part with a truthy `finish_reason`
(and every part is processable without throwing) — a Variant A sequence
ending without one produces no `[DONE]` frame at all. -/
theorem last_frame_done_divergence
    (now : Nat) (createB : String → Bool → List EventB) (fmB : String → Option ToolFn)
    (model : String) (msgsB : List ChatMessage) (ctxB : RequestContext)
    (screate : List ChatMessage → Bool → List PartA) (fm : String → Option ToolFn)
    (msgs : List ChatMessage) (ctx : RequestContext) :
    endsWithDone (processStreamingRequest_B now createB fmB model msgsB ctxB).frames
    ∧ ((∀ q ∈ screate msgs true, safePartA q = true) →
       (∃ q ∈ screate msgs true,
          optStrTruthy (q.choices.head?.bind (·.finish_reason)) = true) →
       endsWithDone (processStreamingRequest_A screate fm msgs ctx).frames) := by
  constructor
  · simp only [processStreamingRequest_B]
    exact runLoopB_ends_done ..
  · intro hs hex
    simp only [processStreamingRequest_A]
    exact runLoopA_safe_ends_done screate fm msgs ctx (screate msgs true) hs hex none ""

/-- Witness for C6's amended theorem: a Variant B stream holding only
`response.completed`, and a Variant A stream holding one `stop` part. -/
theorem last_frame_done_divergence_witness :
    endsWithDone (processStreamingRequest_B 0 (fun _ _ => [evCompleted]) fmEmpty "m"
      [msgHi] ctxW).frames ∧
    endsWithDone (processStreamingRequest_A (fun _ _ => [partStopFinish]) fmEmpty
      [msgHi] ctxW).frames :=
  ⟨(last_frame_done_divergence 0 (fun _ _ => [evCompleted]) fmEmpty "m" [msgHi] ctxW
      (fun _ _ => [partStopFinish]) fmEmpty [msgHi] ctxW).1,
   (last_frame_done_divergence 0 (fun _ _ => [evCompleted]) fmEmpty "m" [msgHi] ctxW
      (fun _ _ => [partStopFinish]) fmEmpty [msgHi] ctxW).2 (by decide) (by decide)⟩
